import Mathlib

/-!
runlike: the formatter `Inspector.GetRunlikeCommand` of `main.go`.

A shallow embedding of the command formatter.  A Go `string` is an immutable
sequence of bytes, so it is embedded as a list of bytes; `+` on strings is list
append, `s[1:]` drops the first byte and panics on the empty string.
-/

namespace Runlike

/-- A Go string: a sequence of bytes. -/
abbrev Str := List UInt8

/-- The bytes of a Go string literal (Go source text is UTF-8). -/
def lit (s : String) : Str := s.data.flatMap String.utf8EncodeChar

/-- One step of the digit loop of integer formatting: the least significant
digit of `n` is put in front of the digits already produced. -/
def digitsAux : Nat → Nat → Str → Str
  | 0, _, acc => acc
  | fuel + 1, n, acc =>
    let acc1 := (48 + n % 10).toUInt8 :: acc
    if n / 10 = 0 then acc1 else digitsAux fuel (n / 10) acc1

/-- The decimal digits of a natural number, most significant first. -/
def formatUint (n : Nat) : Str := digitsAux (n + 1) n []

/-- The result of `fmt.Sprintf("%d", m)` for an integer `m`. -/
def Sprintf_d : Int → Str
  | Int.ofNat n => formatUint n
  | Int.negSucc n => lit "-" ++ formatUint (n + 1)

/-- Modelled from the spec: the type `container.DeviceMapping` of the docker
client library, which is not part of this repository (spec section 3). -/
structure DeviceMapping where
  PathOnHost : Str
  PathInContainer : Str
  CgroupPermissions : Str
  deriving DecidableEq

/-- Modelled from the spec: the type `nat.PortBinding` of the docker client
library, a host binding with host IP and host port (spec section 3). -/
structure PortBinding where
  HostIP : Str
  HostPort : Str
  deriving DecidableEq

/-- Modelled from the spec: the type `container.RestartPolicy` of the docker
client library, of which only the name is read (spec section 3). -/
structure RestartPolicy where
  Name : Str
  deriving DecidableEq

/-- Modelled from the spec: the type `types.MountPoint` of the docker client
library.  Only `Source` and `Destination` are read by the formatter; the other
attributes of a mount are carried along (`Type_` is the field `Type`). -/
structure MountPoint where
  Type_ : Str
  Name : Str
  Source : Str
  Destination : Str
  Driver : Str
  Mode : Str
  RW : Bool
  Propagation : Str
  deriving DecidableEq

/-- Modelled from the spec: the fields of `container.HostConfig` that the
formatter reads.  `Memory` and `MemoryReservation` are `int64` in Go; they are
only compared with zero and printed, so no arithmetic can overflow.
`PortBindings` is a Go map from container port to host bindings: it is given
here as the list of its entries in the order in which the `range` loop visits
them, an order that Go leaves unspecified. -/
structure HostConfig where
  Links : List Str
  CpusetCpus : Str
  CpusetMems : Str
  Devices : List DeviceMapping
  Memory : Int
  MemoryReservation : Int
  Privileged : Bool
  AutoRemove : Bool
  PortBindings : List (Str × List PortBinding)
  NetworkMode : Str
  RestartPolicy : RestartPolicy
  DNS : List Str
  DNSSearch : List Str
  ExtraHosts : List Str
  deriving DecidableEq

/-- Modelled from the spec: the fields of `container.Config` that the formatter
reads (spec section 3). -/
structure Config where
  Tty : Bool
  User : Str
  Env : List Str
  WorkingDir : Str
  Image : Str
  Cmd : List Str
  deriving DecidableEq

/-- Modelled from the spec: the field of `types.NetworkSettings` that the
formatter reads (spec section 3). -/
structure NetworkSettings where
  MacAddress : Str
  deriving DecidableEq

/-- Modelled from the spec: the descriptor `types.ContainerJSON` of the docker
client library, fully populated as the spec requires of a fetched descriptor
(no nil sub-structure). -/
structure ContainerJSON where
  Name : Str
  HostConfig : HostConfig
  Config : Config
  NetworkSettings : NetworkSettings
  Mounts : List MountPoint
  deriving DecidableEq

/-- The `Inspector` of `main.go`; its `client` field is not read by the
formatter and is left out. -/
structure Inspector where
  container : ContainerJSON
  deriving DecidableEq

/-- The slice expression `s[1:]`: a run-time panic (`none`) when `s` is empty,
otherwise `s` without its first byte. -/
def sliceFrom1 (s : Str) : Option Str :=
  if 1 ≤ s.length then some (s.drop 1) else none

/-- The function `strings.Join` of the Go standard library. -/
def stringsJoin : List Str → Str → Str
  | [], _ => []
  | [a], _ => a
  | a :: b :: rest, sep => a ++ sep ++ stringsJoin (b :: rest) sep

/-- Lines 49-52: the MAC address. -/
def addMacAddress (i : Inspector) (command : Str) : Str :=
  if i.container.NetworkSettings.MacAddress ≠ [] then
    command ++ lit "--mac-address " ++ i.container.NetworkSettings.MacAddress ++ lit " "
  else command

/-- Lines 54-57: the links. -/
def addLinks (i : Inspector) (command : Str) : Str :=
  i.container.HostConfig.Links.foldl
    (fun command link => command ++ lit "--link " ++ link ++ lit " ") command

/-- Lines 59-62: cpuset-cpus. -/
def addCpusetCpus (i : Inspector) (command : Str) : Str :=
  if i.container.HostConfig.CpusetCpus ≠ [] then
    command ++ lit "--cpuset-cpus " ++ i.container.HostConfig.CpusetCpus ++ lit " "
  else command

/-- Lines 64-67: cpuset-mems. -/
def addCpusetMems (i : Inspector) (command : Str) : Str :=
  if i.container.HostConfig.CpusetMems ≠ [] then
    command ++ lit "--cpuset-mems " ++ i.container.HostConfig.CpusetMems ++ lit " "
  else command

/-- Lines 71-75: the body of the loop over the devices. -/
def addDevice (command : Str) (device : DeviceMapping) : Str :=
  let command := command ++ lit "--device " ++ device.PathOnHost ++ lit ":" ++
    device.PathInContainer
  let command :=
    if device.CgroupPermissions ≠ [] then command ++ lit ":" ++ device.CgroupPermissions
    else command
  command ++ lit " "

/-- Lines 69-76: the devices. -/
def addDevices (i : Inspector) (command : Str) : Str :=
  i.container.HostConfig.Devices.foldl addDevice command

/-- Lines 83-86: the memory limit. -/
def addMemory (i : Inspector) (command : Str) : Str :=
  if i.container.HostConfig.Memory > 0 then
    command ++ lit "--memory " ++ Sprintf_d i.container.HostConfig.Memory ++ lit " "
  else command

/-- Lines 88-91: the memory reservation. -/
def addMemoryReservation (i : Inspector) (command : Str) : Str :=
  if i.container.HostConfig.MemoryReservation > 0 then
    command ++ lit "--memory-reservation " ++
      Sprintf_d i.container.HostConfig.MemoryReservation ++ lit " "
  else command

/-- Lines 93-96: privileged. -/
def addPrivileged (i : Inspector) (command : Str) : Str :=
  if i.container.HostConfig.Privileged then command ++ lit "--privileged " else command

/-- Lines 98-99: detach, always added. -/
def addDetach (command : Str) : Str := command ++ lit "-d "

/-- Lines 101-104: tty. -/
def addTty (i : Inspector) (command : Str) : Str :=
  if i.container.Config.Tty then command ++ lit "-t " else command

/-- Lines 106-109: rm. -/
def addRm (i : Inspector) (command : Str) : Str :=
  if i.container.HostConfig.AutoRemove then command ++ lit "--rm " else command

/-- Lines 111-114: the user. -/
def addUser (i : Inspector) (command : Str) : Str :=
  if i.container.Config.User ≠ [] then
    command ++ lit "--user " ++ i.container.Config.User ++ lit " "
  else command

/-- Lines 116-119: the environment variables. -/
def addEnv (i : Inspector) (command : Str) : Str :=
  i.container.Config.Env.foldl
    (fun command env => command ++ lit "-e \"" ++ env ++ lit "\" ") command

/-- Lines 121-126: the port bindings, the entries of the map in visit order. -/
def addPortBindings (i : Inspector) (command : Str) : Str :=
  i.container.HostConfig.PortBindings.foldl
    (fun command entry =>
      entry.2.foldl
        (fun command binding =>
          command ++ lit "-p " ++ binding.HostIP ++ lit ":" ++ binding.HostPort ++ lit ":" ++
            entry.1 ++ lit " ")
        command)
    command

/-- Lines 128-131: the network mode. -/
def addNetwork (i : Inspector) (command : Str) : Str :=
  if i.container.HostConfig.NetworkMode ≠ [] then
    command ++ lit "--network " ++ i.container.HostConfig.NetworkMode ++ lit " "
  else command

/-- Lines 133-136: the volumes. -/
def addVolumes (i : Inspector) (command : Str) : Str :=
  i.container.Mounts.foldl
    (fun command mount => command ++ lit "-v " ++ mount.Source ++ lit ":" ++
      mount.Destination ++ lit " ")
    command

/-- Lines 138-141: the working directory. -/
def addWorkingDir (i : Inspector) (command : Str) : Str :=
  if i.container.Config.WorkingDir ≠ [] then
    command ++ lit "-w " ++ i.container.Config.WorkingDir ++ lit " "
  else command

/-- Lines 143-146: the restart policy. -/
def addRestart (i : Inspector) (command : Str) : Str :=
  if i.container.HostConfig.RestartPolicy.Name ≠ [] then
    command ++ lit "--restart " ++ i.container.HostConfig.RestartPolicy.Name ++ lit " "
  else command

/-- Lines 148-151: the DNS servers. -/
def addDNS (i : Inspector) (command : Str) : Str :=
  i.container.HostConfig.DNS.foldl
    (fun command dns => command ++ lit "--dns " ++ dns ++ lit " ") command

/-- Lines 153-156: the DNS search domains. -/
def addDNSSearch (i : Inspector) (command : Str) : Str :=
  i.container.HostConfig.DNSSearch.foldl
    (fun command dnsSearch => command ++ lit "--dns-search " ++ dnsSearch ++ lit " ") command

/-- Lines 158-161: the extra hosts. -/
def addExtraHosts (i : Inspector) (command : Str) : Str :=
  i.container.HostConfig.ExtraHosts.foldl
    (fun command extraHost => command ++ lit "--add-host " ++ extraHost ++ lit " ") command

/-- Lines 163-164: the image, always added. -/
def addImage (i : Inspector) (command : Str) : Str :=
  command ++ i.container.Config.Image ++ lit " "

/-- Lines 166-169: the command and its arguments. -/
def addCmd (i : Inspector) (command : Str) : Str :=
  if i.container.Config.Cmd.length > 0 then
    command ++ stringsJoin i.container.Config.Cmd (lit " ") ++ lit " "
  else command

/-- The method `GetRunlikeCommand` of `main.go` (lines 37-172): the command
string is accumulated block by block, in the order of the source.  The result
is `none` when the slice `Name[1:]` of line 41 panics. -/
def GetRunlikeCommand (i : Inspector) : Option Str :=
  let command := lit "docker run "
  match sliceFrom1 i.container.Name with
  | none => none
  | some containerName =>
    let command := command ++ lit "--name " ++ containerName ++ lit " "
    let command := addMacAddress i command
    let command := addLinks i command
    let command := addCpusetCpus i command
    let command := addCpusetMems i command
    let command := addDevices i command
    let command := addMemory i command
    let command := addMemoryReservation i command
    let command := addPrivileged i command
    let command := addDetach command
    let command := addTty i command
    let command := addRm i command
    let command := addUser i command
    let command := addEnv i command
    let command := addPortBindings i command
    let command := addNetwork i command
    let command := addVolumes i command
    let command := addWorkingDir i command
    let command := addRestart i command
    let command := addDNS i command
    let command := addDNSSearch i command
    let command := addExtraHosts i command
    let command := addImage i command
    let command := addCmd i command
    some command

/-- The descriptor in which every field is empty, zero or false. -/
def emptyContainer : ContainerJSON where
  Name := []
  HostConfig :=
    { Links := [], CpusetCpus := [], CpusetMems := [], Devices := [], Memory := 0,
      MemoryReservation := 0, Privileged := false, AutoRemove := false, PortBindings := [],
      NetworkMode := [], RestartPolicy := { Name := [] }, DNS := [], DNSSearch := [],
      ExtraHosts := [] }
  Config := { Tty := false, User := [], Env := [], WorkingDir := [], Image := [], Cmd := [] }
  NetworkSettings := { MacAddress := [] }
  Mounts := []

/-- The descriptor of the end-to-end scenario of the spec. -/
def scenarioInspector : Inspector where
  container :=
    { emptyContainer with
      Name := lit "/app"
      HostConfig := { emptyContainer.HostConfig with Memory := 536870912 }
      Config := { emptyContainer.Config with
        Image := lit "nginx:latest", Tty := true, Env := [lit "X=1"] } }

/-- The descriptor whose stored name begins with two separators. -/
def doubleSlashInspector : Inspector where
  container := { emptyContainer with Name := lit "//x" }

/-- A descriptor with default fields whose name ends in `-t`. -/
def hyphenNameInspector : Inspector where
  container :=
    { emptyContainer with
      Name := lit "/web-t"
      Config := { emptyContainer.Config with Image := lit "nginx" } }

/-- A descriptor in which only the name and the image are set. -/
def plainInspector : Inspector where
  container :=
    { emptyContainer with
      Name := lit "/app"
      Config := { emptyContainer.Config with Image := lit "nginx:latest" } }

/-- A descriptor in which every scalar conditional field is set. -/
def scalarInspector : Inspector where
  container :=
    { emptyContainer with
      Name := lit "/web"
      NetworkSettings := { MacAddress := lit "02:42:ac:11:00:02" }
      HostConfig := { emptyContainer.HostConfig with
        CpusetCpus := lit "0-1", CpusetMems := lit "0", NetworkMode := lit "bridge",
        RestartPolicy := { Name := lit "always" } }
      Config := { emptyContainer.Config with
        Image := lit "nginx:latest", User := lit "root", WorkingDir := lit "/srv" } }

/-- A descriptor with the two environment variables `A=1` and `B=2`. -/
def envInspector : Inspector where
  container :=
    { emptyContainer with
      Name := lit "/app"
      Config := { emptyContainer.Config with
        Image := lit "alpine", Env := [lit "A=1", lit "B=2"] } }

/-- A descriptor with two devices, the second without permissions. -/
def deviceInspector : Inspector where
  container :=
    { emptyContainer with
      Name := lit "/app"
      HostConfig := { emptyContainer.HostConfig with
        Devices := [⟨lit "/dev/sda", lit "/dev/xvda", lit "rwm"⟩,
          ⟨lit "/dev/sda", lit "/dev/xvda", lit ""⟩] }
      Config := { emptyContainer.Config with Image := lit "alpine" } }

/-! ## The segments appended by the blocks -/

/-- The tokens of the bindings under one container port. -/
def portTokens (entry : Str × List PortBinding) : Str :=
  entry.2.flatMap (fun binding =>
    lit "-p " ++ binding.HostIP ++ lit ":" ++ binding.HostPort ++ lit ":" ++ entry.1 ++ lit " ")

/-- The segments that the blocks after the name append, in the order of the source. -/
def segments (i : Inspector) : List Str :=
  [addMacAddress i [], addLinks i [], addCpusetCpus i [], addCpusetMems i [],
   addDevices i [], addMemory i [], addMemoryReservation i [], addPrivileged i [],
   addDetach [], addTty i [], addRm i [], addUser i [], addEnv i [], addPortBindings i [],
   addNetwork i [], addVolumes i [], addWorkingDir i [], addRestart i [], addDNS i [],
   addDNSSearch i [], addExtraHosts i [], addImage i [], addCmd i []]

/-! ## The token-list formulation of the spec (section 4.2 and section 9) -/

/-- The rule table of the spec: one rule per field, in the fixed order of
section 4.2; a rule gives the tokens that its field contributes (none when the
presence condition fails, one per entry for a list field).  The name rule drops
the leading separator character of the stored name. -/
def specRuleTable : List (Inspector → List Str) :=
  [ fun i => [lit "--name " ++ i.container.Name.drop 1],
    fun i => if i.container.NetworkSettings.MacAddress ≠ [] then
      [lit "--mac-address " ++ i.container.NetworkSettings.MacAddress] else [],
    fun i => i.container.HostConfig.Links.map (fun link => lit "--link " ++ link),
    fun i => if i.container.HostConfig.CpusetCpus ≠ [] then
      [lit "--cpuset-cpus " ++ i.container.HostConfig.CpusetCpus] else [],
    fun i => if i.container.HostConfig.CpusetMems ≠ [] then
      [lit "--cpuset-mems " ++ i.container.HostConfig.CpusetMems] else [],
    fun i => i.container.HostConfig.Devices.map (fun device =>
      if device.CgroupPermissions ≠ [] then
        lit "--device " ++ device.PathOnHost ++ lit ":" ++ device.PathInContainer ++ lit ":" ++
          device.CgroupPermissions
      else lit "--device " ++ device.PathOnHost ++ lit ":" ++ device.PathInContainer),
    fun i => if i.container.HostConfig.Memory > 0 then
      [lit "--memory " ++ Sprintf_d i.container.HostConfig.Memory] else [],
    fun i => if i.container.HostConfig.MemoryReservation > 0 then
      [lit "--memory-reservation " ++ Sprintf_d i.container.HostConfig.MemoryReservation]
      else [],
    fun i => if i.container.HostConfig.Privileged then [lit "--privileged"] else [],
    fun _ => [lit "-d"],
    fun i => if i.container.Config.Tty then [lit "-t"] else [],
    fun i => if i.container.HostConfig.AutoRemove then [lit "--rm"] else [],
    fun i => if i.container.Config.User ≠ [] then
      [lit "--user " ++ i.container.Config.User] else [],
    fun i => i.container.Config.Env.map (fun env => lit "-e \"" ++ env ++ lit "\""),
    fun i => i.container.HostConfig.PortBindings.flatMap (fun entry =>
      entry.2.map (fun binding =>
        lit "-p " ++ binding.HostIP ++ lit ":" ++ binding.HostPort ++ lit ":" ++ entry.1)),
    fun i => if i.container.HostConfig.NetworkMode ≠ [] then
      [lit "--network " ++ i.container.HostConfig.NetworkMode] else [],
    fun i => i.container.Mounts.map (fun mount =>
      lit "-v " ++ mount.Source ++ lit ":" ++ mount.Destination),
    fun i => if i.container.Config.WorkingDir ≠ [] then
      [lit "-w " ++ i.container.Config.WorkingDir] else [],
    fun i => if i.container.HostConfig.RestartPolicy.Name ≠ [] then
      [lit "--restart " ++ i.container.HostConfig.RestartPolicy.Name] else [],
    fun i => i.container.HostConfig.DNS.map (fun dns => lit "--dns " ++ dns),
    fun i => i.container.HostConfig.DNSSearch.map (fun d => lit "--dns-search " ++ d),
    fun i => i.container.HostConfig.ExtraHosts.map (fun h => lit "--add-host " ++ h),
    fun i => [i.container.Config.Image],
    fun i => i.container.Config.Cmd ]

/-- The ordered token list of the spec: the rules of the table executed once,
in sequence. -/
def specTokens (i : Inspector) : List Str := specRuleTable.flatMap (fun rule => rule i)

/-- The tokens joined once at the end, each followed by exactly one space. -/
def joinTokens (tokens : List Str) : Str := tokens.flatMap (fun t => t ++ lit " ")

/-- The formatter of the spec: `docker run ` followed by the joined tokens. -/
def specFormat (i : Inspector) : Str := lit "docker run " ++ joinTokens (specTokens i)

/-! ## Occurrences of a text in the output -/

/-- The text `v` is clean for the text `F`: no non-empty suffix of `v` begins
with `F` or is a prefix of `F`.  Equivalently `F` does not occur in `v` and `v`
does not end with a non-empty prefix of `F`. -/
def Clean (F v : Str) : Prop := ∀ S ∈ v.tails, S ≠ [] → ¬ F <+: S ∧ ¬ S <+: F

instance (F v : Str) : Decidable (Clean F v) := by
  unfold Clean
  infer_instance

/-- Every value that the formatter writes, each followed by the separator byte
that the source puts right after it: a space, the colon inside a device, port
or mount token, or the closing double quote of an env entry. -/
def emittedUnits (i : Inspector) : List Str :=
  [i.container.Name.drop 1 ++ lit " "] ++
  (if i.container.NetworkSettings.MacAddress ≠ [] then
    [i.container.NetworkSettings.MacAddress ++ lit " "] else []) ++
  i.container.HostConfig.Links.map (fun link => link ++ lit " ") ++
  (if i.container.HostConfig.CpusetCpus ≠ [] then
    [i.container.HostConfig.CpusetCpus ++ lit " "] else []) ++
  (if i.container.HostConfig.CpusetMems ≠ [] then
    [i.container.HostConfig.CpusetMems ++ lit " "] else []) ++
  i.container.HostConfig.Devices.flatMap (fun device =>
    if device.CgroupPermissions ≠ [] then
      [device.PathOnHost ++ lit ":", device.PathInContainer ++ lit ":",
        device.CgroupPermissions ++ lit " "]
    else [device.PathOnHost ++ lit ":", device.PathInContainer ++ lit " "]) ++
  (if i.container.Config.User ≠ [] then [i.container.Config.User ++ lit " "] else []) ++
  i.container.Config.Env.map (fun env => env ++ lit "\"") ++
  i.container.HostConfig.PortBindings.flatMap (fun entry =>
    entry.2.flatMap (fun binding =>
      [binding.HostIP ++ lit ":", binding.HostPort ++ lit ":", entry.1 ++ lit " "])) ++
  (if i.container.HostConfig.NetworkMode ≠ [] then
    [i.container.HostConfig.NetworkMode ++ lit " "] else []) ++
  i.container.Mounts.flatMap (fun mount =>
    [mount.Source ++ lit ":", mount.Destination ++ lit " "]) ++
  (if i.container.Config.WorkingDir ≠ [] then
    [i.container.Config.WorkingDir ++ lit " "] else []) ++
  (if i.container.HostConfig.RestartPolicy.Name ≠ [] then
    [i.container.HostConfig.RestartPolicy.Name ++ lit " "] else []) ++
  i.container.HostConfig.DNS.map (fun dns => dns ++ lit " ") ++
  i.container.HostConfig.DNSSearch.map (fun dnsSearch => dnsSearch ++ lit " ") ++
  i.container.HostConfig.ExtraHosts.map (fun extraHost => extraHost ++ lit " ") ++
  [i.container.Config.Image ++ lit " "] ++
  i.container.Config.Cmd.map (fun arg => arg ++ lit " ")

/-- The literal texts of the source that each block can append, block by
block in the order of `segments`. -/
def segLiterals : List (List Str) :=
  [[lit "--mac-address ", lit " "], [lit "--link ", lit " "], [lit "--cpuset-cpus ", lit " "],
   [lit "--cpuset-mems ", lit " "], [lit "--device ", lit ":", lit " "],
   [lit "--memory ", lit " "], [lit "--memory-reservation ", lit " "], [lit "--privileged "],
   [lit "-d "], [lit "-t "], [lit "--rm "], [lit "--user ", lit " "],
   [lit "-e \"", lit "\" "], [lit "-p ", lit ":", lit " "], [lit "--network ", lit " "],
   [lit "-v ", lit ":", lit " "], [lit "-w ", lit " "], [lit "--restart ", lit " "],
   [lit "--dns ", lit " "], [lit "--dns-search ", lit " "], [lit "--add-host ", lit " "],
   [lit " "], [lit " "]]

/-- The literal texts of the source that come before the first block. -/
def headLiterals : List Str := [lit "docker run ", lit "--name ", lit " "]

/-- The descriptor with the memory limit replaced. -/
def setMemory (i : Inspector) (m : Int) : Inspector :=
  { i with container := { i.container with
      HostConfig := { i.container.HostConfig with Memory := m } } }

/-- The descriptor with the memory reservation replaced. -/
def setMemoryReservation (i : Inspector) (m : Int) : Inspector :=
  { i with container := { i.container with
      HostConfig := { i.container.HostConfig with MemoryReservation := m } } }

/-- The value of a string of decimal digits. -/
def decodeUint (s : Str) : Nat := s.foldl (fun a b => a * 10 + (b.toNat - 48)) 0

/-- The descriptor with the port-binding table replaced, the entries given in
the order in which the `range` loop visits them. -/
def setPortBindings (i : Inspector) (pb : List (Str × List PortBinding)) : Inspector :=
  { i with container := { i.container with
      HostConfig := { i.container.HostConfig with PortBindings := pb } } }

/-- The descriptor with the mount list replaced. -/
def setMounts (i : Inspector) (mounts : List MountPoint) : Inspector :=
  { i with container := { i.container with Mounts := mounts } }

/-- The descriptor with the command list replaced. -/
def setCmd (i : Inspector) (cmd : List Str) : Inspector :=
  { i with container := { i.container with
      Config := { i.container.Config with Cmd := cmd } } }

/-- A descriptor whose stored name does not begin with the separator. -/
def web1Inspector : Inspector where
  container := { emptyContainer with Name := lit "web1" }

/-- The descriptor with the name `/app` and every other field empty. -/
def bareInspector : Inspector where
  container := { emptyContainer with Name := lit "/app" }

/-- A port-binding table with two container ports, in one visit order. -/
def portsFirstOrder : List (Str × List PortBinding) :=
  [(lit "80/tcp", [⟨lit "0.0.0.0", lit "8080"⟩]), (lit "443/tcp", [⟨lit "0.0.0.0", lit "8443"⟩])]

/-- The same port-binding table in the other visit order. -/
def portsSecondOrder : List (Str × List PortBinding) :=
  [(lit "443/tcp", [⟨lit "0.0.0.0", lit "8443"⟩]), (lit "80/tcp", [⟨lit "0.0.0.0", lit "8080"⟩])]

/-- A read-only named volume and a bind mount. -/
def sampleMounts : List MountPoint :=
  [⟨lit "volume", lit "data", lit "/var/lib/docker/volumes/data/_data", lit "/data",
      lit "local", lit "ro", false, lit ""⟩,
   ⟨lit "bind", lit "", lit "/srv", lit "/srv", lit "", lit "", true, lit "rprivate"⟩]

/-- A descriptor with DNS servers, a search domain and an extra host. -/
def dnsInspector : Inspector where
  container :=
    { emptyContainer with
      Name := lit "/app"
      HostConfig := { emptyContainer.HostConfig with
        DNS := [lit "8.8.8.8", lit "1.1.1.1"], DNSSearch := [lit "example.com"],
        ExtraHosts := [lit "db:10.0.0.2"] }
      Config := { emptyContainer.Config with Image := lit "alpine" } }

/-- A descriptor with default fields whose name and last argument end with a
hyphen. -/
def hyphenEndInspector : Inspector where
  container :=
    { emptyContainer with
      Name := lit "/web-"
      Config := { emptyContainer.Config with
        Image := lit "nginx", Cmd := [lit "cat", lit "-"] } }

/-- An error value of the docker client library, given by its message. -/
abbrev Err := Str

/-- Modelled from the spec: the client handle `client.Client` of the docker
client library, which the fetcher only passes on to the inspect query. -/
structure Client where
  host : Str
  deriving DecidableEq

/-- The two calls that `NewInspector` makes into the docker client library:
the result of `client.NewClientWithOpts(client.FromEnv,
client.WithAPIVersionNegotiation())` and the query `cli.ContainerInspect`. -/
structure Docker where
  NewClientWithOpts : Except Err Client
  ContainerInspect : Client → Str → Except Err ContainerJSON

/-- The function `NewInspector` of `main.go` (lines 20-35): `(nil, err)` is
`Except.error err`; the `client` field of the inspector is left out. -/
def NewInspector (docker : Docker) (containerID : Str) : Except Err Inspector :=
  match docker.NewClientWithOpts with
  | Except.error err => Except.error err
  | Except.ok cli =>
    match docker.ContainerInspect cli containerID with
    | Except.error err => Except.error err
    | Except.ok container => Except.ok { container := container }

/-- What a run of the program leaves behind: the bytes written to standard
output and to standard error, the exit status, and the identifiers with which
`NewInspector` was called. -/
structure Outcome where
  stdout : Str
  stderr : Str
  exitCode : Nat
  inspected : List Str
  deriving DecidableEq

/-- The value of a string flag after `flag.Parse()`: the argument given on the
command line, or the default value when the flag is omitted. -/
def flagString (value : Str) (arg : Option Str) : Str := arg.getD value

/-- The text that `flag.PrintDefaults()` writes, to standard error, for the one
flag `-c`. -/
def usageText : Str := lit "  -c string\n    \tname or id of the container\n"

/-- The function `main` of `main.go` (lines 174-189), run with the argument of
the flag `-c` (`none` when the flag is omitted).  `os.Exit(0)` ends the run with
status 0, `log.Fatalf` writes its message to standard error (the time stamp
that the logger puts in front is left out) and ends the run with status 1, a
panic of the formatter ends the run with status 2, and `fmt.Println` writes the
command and a newline to standard output. -/
def main (docker : Docker) (arg : Option Str) : Outcome :=
  let containerID := flagString (lit "") arg
  if containerID = [] then
    { stdout := [], stderr := usageText, exitCode := 0, inspected := [] }
  else
    match NewInspector docker containerID with
    | Except.error err =>
      { stdout := [], stderr := lit "Failed to create inspector: " ++ err ++ lit "\n",
        exitCode := 1, inspected := [containerID] }
    | Except.ok inspector =>
      match GetRunlikeCommand inspector with
      | none =>
        { stdout := [],
          stderr := lit "panic: runtime error: slice bounds out of range [1:0]\n",
          exitCode := 2, inspected := [containerID] }
      | some command =>
        { stdout := command ++ lit "\n", stderr := [], exitCode := 0,
          inspected := [containerID] }

/-- A daemon that cannot be reached: the client cannot be built. -/
def unreachableDocker : Docker where
  NewClientWithOpts := Except.error (lit "unable to parse docker host")
  ContainerInspect := fun _ _ => Except.error (lit "unreachable")

/-- A daemon that knows no container. -/
def emptyDocker : Docker where
  NewClientWithOpts := Except.ok ⟨lit "unix:///var/run/docker.sock"⟩
  ContainerInspect := fun _ _ => Except.error (lit "No such container")

/-- A daemon that knows the container of the end-to-end scenario only. -/
def scenarioDocker : Docker where
  NewClientWithOpts := Except.ok ⟨lit "unix:///var/run/docker.sock"⟩
  ContainerInspect := fun _ containerID =>
    if containerID = lit "app" then Except.ok scenarioInspector.container
    else Except.error (lit "No such container")

/-! ## Every block appends a segment to the accumulated command -/

theorem foldl_append_flatMap {α : Type} (g : Str → α → Str) (f : α → Str)
    (h : ∀ c x, g c x = c ++ f x) (xs : List α) (c : Str) :
    xs.foldl g c = c ++ xs.flatMap f := by
  induction xs generalizing c with
  | nil => simp
  | cons x xs ih => simp [List.foldl_cons, ih, h, List.flatMap_cons, List.append_assoc]

theorem addMacAddress_append (i : Inspector) (c : Str) : addMacAddress i c = c ++ addMacAddress i [] := by
  unfold addMacAddress
  split <;> simp [List.append_assoc]

theorem addCpusetCpus_append (i : Inspector) (c : Str) : addCpusetCpus i c = c ++ addCpusetCpus i [] := by
  unfold addCpusetCpus
  split <;> simp [List.append_assoc]

theorem addCpusetMems_append (i : Inspector) (c : Str) : addCpusetMems i c = c ++ addCpusetMems i [] := by
  unfold addCpusetMems
  split <;> simp [List.append_assoc]

theorem addMemory_append (i : Inspector) (c : Str) : addMemory i c = c ++ addMemory i [] := by
  unfold addMemory
  split <;> simp [List.append_assoc]

theorem addMemoryReservation_append (i : Inspector) (c : Str) : addMemoryReservation i c = c ++ addMemoryReservation i [] := by
  unfold addMemoryReservation
  split <;> simp [List.append_assoc]

theorem addPrivileged_append (i : Inspector) (c : Str) : addPrivileged i c = c ++ addPrivileged i [] := by
  unfold addPrivileged
  split <;> simp [List.append_assoc]

theorem addTty_append (i : Inspector) (c : Str) : addTty i c = c ++ addTty i [] := by
  unfold addTty
  split <;> simp [List.append_assoc]

theorem addRm_append (i : Inspector) (c : Str) : addRm i c = c ++ addRm i [] := by
  unfold addRm
  split <;> simp [List.append_assoc]

theorem addUser_append (i : Inspector) (c : Str) : addUser i c = c ++ addUser i [] := by
  unfold addUser
  split <;> simp [List.append_assoc]

theorem addNetwork_append (i : Inspector) (c : Str) : addNetwork i c = c ++ addNetwork i [] := by
  unfold addNetwork
  split <;> simp [List.append_assoc]

theorem addWorkingDir_append (i : Inspector) (c : Str) : addWorkingDir i c = c ++ addWorkingDir i [] := by
  unfold addWorkingDir
  split <;> simp [List.append_assoc]

theorem addRestart_append (i : Inspector) (c : Str) : addRestart i c = c ++ addRestart i [] := by
  unfold addRestart
  split <;> simp [List.append_assoc]

theorem addCmd_append (i : Inspector) (c : Str) : addCmd i c = c ++ addCmd i [] := by
  unfold addCmd
  split <;> simp [List.append_assoc]

theorem addImage_append (i : Inspector) (c : Str) : addImage i c = c ++ addImage i [] := by
  simp [addImage, List.append_assoc]

theorem addDevice_append (c : Str) (d : DeviceMapping) : addDevice c d = c ++ addDevice [] d := by
  unfold addDevice
  split <;> simp [List.append_assoc]

theorem addLinks_eq (i : Inspector) (c : Str) :
    addLinks i c = c ++ i.container.HostConfig.Links.flatMap
      (fun link => lit "--link " ++ link ++ lit " ") := by
  unfold addLinks
  exact foldl_append_flatMap _ _ (by intros; simp [List.append_assoc]) _ _

theorem addEnv_eq (i : Inspector) (c : Str) :
    addEnv i c = c ++ i.container.Config.Env.flatMap
      (fun env => lit "-e \"" ++ env ++ lit "\" ") := by
  unfold addEnv
  exact foldl_append_flatMap _ _ (by intros; simp [List.append_assoc]) _ _

theorem addVolumes_eq (i : Inspector) (c : Str) :
    addVolumes i c = c ++ i.container.Mounts.flatMap
      (fun mount => lit "-v " ++ mount.Source ++ lit ":" ++ mount.Destination ++ lit " ") := by
  unfold addVolumes
  exact foldl_append_flatMap _ _ (by intros; simp [List.append_assoc]) _ _

theorem addDNS_eq (i : Inspector) (c : Str) :
    addDNS i c = c ++ i.container.HostConfig.DNS.flatMap
      (fun dns => lit "--dns " ++ dns ++ lit " ") := by
  unfold addDNS
  exact foldl_append_flatMap _ _ (by intros; simp [List.append_assoc]) _ _

theorem addDNSSearch_eq (i : Inspector) (c : Str) :
    addDNSSearch i c = c ++ i.container.HostConfig.DNSSearch.flatMap
      (fun dnsSearch => lit "--dns-search " ++ dnsSearch ++ lit " ") := by
  unfold addDNSSearch
  exact foldl_append_flatMap _ _ (by intros; simp [List.append_assoc]) _ _

theorem addExtraHosts_eq (i : Inspector) (c : Str) :
    addExtraHosts i c = c ++ i.container.HostConfig.ExtraHosts.flatMap
      (fun extraHost => lit "--add-host " ++ extraHost ++ lit " ") := by
  unfold addExtraHosts
  exact foldl_append_flatMap _ _ (by intros; simp [List.append_assoc]) _ _

theorem addDevices_eq (i : Inspector) (c : Str) :
    addDevices i c = c ++ i.container.HostConfig.Devices.flatMap (addDevice []) := by
  unfold addDevices
  exact foldl_append_flatMap _ _ addDevice_append _ _

theorem addPortBindings_eq (i : Inspector) (c : Str) :
    addPortBindings i c = c ++ i.container.HostConfig.PortBindings.flatMap portTokens := by
  unfold addPortBindings
  refine foldl_append_flatMap _ _ ?_ _ _
  intro c entry
  exact foldl_append_flatMap _ _ (by intros; simp [List.append_assoc]) _ _

theorem sliceFrom1_of_ne_nil (s : Str) (h : s ≠ []) : sliceFrom1 s = some (s.drop 1) := by
  unfold sliceFrom1
  have : 1 ≤ s.length := by
    cases s with
    | nil => exact absurd rfl h
    | cons a t => simp
  simp [this]

theorem GetRunlikeCommand_eq_segments (i : Inspector) (h : i.container.Name ≠ []) :
    GetRunlikeCommand i =
      some (lit "docker run " ++ (lit "--name " ++ i.container.Name.drop 1 ++ lit " ") ++
        (segments i).flatten) := by
  unfold GetRunlikeCommand
  rw [sliceFrom1_of_ne_nil _ h]
  simp only [segments, List.flatten, List.append_nil]
  rw [addCmd_append, addImage_append, addExtraHosts_eq i (addDNSSearch _ _),
    addDNSSearch_eq i (addDNS _ _), addDNS_eq i (addRestart _ _), addRestart_append,
    addWorkingDir_append, addVolumes_eq i (addNetwork _ _), addNetwork_append,
    addPortBindings_eq i (addEnv _ _), addEnv_eq i (addUser _ _), addUser_append,
    addRm_append, addTty_append]
  unfold addDetach
  rw [addPrivileged_append, addMemoryReservation_append, addMemory_append,
    addDevices_eq i (addCpusetMems _ _), addCpusetMems_append, addCpusetCpus_append,
    addLinks_eq i (addMacAddress _ _), addMacAddress_append]
  simp [List.append_assoc, addLinks_eq, addDevices_eq, addEnv_eq, addPortBindings_eq,
    addVolumes_eq, addDNS_eq, addDNSSearch_eq, addExtraHosts_eq]

theorem joinTokens_append (a b : List Str) : joinTokens (a ++ b) = joinTokens a ++ joinTokens b := by
  simp [joinTokens]

theorem joinTokens_ite (c : Prop) [Decidable c] (t : Str) :
    joinTokens (if c then [t] else []) = if c then t ++ lit " " else [] := by
  split <;> simp [joinTokens]

theorem stringsJoin_space (cmd : List Str) (h : cmd ≠ []) :
    stringsJoin cmd (lit " ") ++ lit " " = joinTokens cmd := by
  induction cmd with
  | nil => exact absurd rfl h
  | cons a rest ih =>
    cases rest with
    | nil => simp [stringsJoin, joinTokens]
    | cons b rest =>
      have := ih (by simp)
      simp only [stringsJoin, List.append_assoc, this]
      simp [joinTokens]

theorem specFormat_eq (i : Inspector) :
    specFormat i = lit "docker run " ++ (lit "--name " ++ i.container.Name.drop 1 ++ lit " ") ++
        (segments i).flatten := by
  have hcmd : joinTokens i.container.Config.Cmd = addCmd i [] := by
    unfold addCmd
    split
    · rename_i h
      rw [List.nil_append, stringsJoin_space _ (by intro h0; simp [h0] at h)]
    · rename_i h
      have h0 : i.container.Config.Cmd = [] := by simpa using h
      simp [h0, joinTokens]
  have hdev : ∀ d : DeviceMapping, addDevice [] d =
      (if d.CgroupPermissions ≠ [] then
        lit "--device " ++ d.PathOnHost ++ lit ":" ++ d.PathInContainer ++ lit ":" ++
          d.CgroupPermissions
      else lit "--device " ++ d.PathOnHost ++ lit ":" ++ d.PathInContainer) ++ lit " " := by
    intro d
    unfold addDevice
    split <;> simp [List.append_assoc]
  have hdev1 := funext hdev
  have hport : portTokens = fun entry : Str × List PortBinding =>
      entry.2.flatMap (fun binding => lit "-p " ++ binding.HostIP ++ lit ":" ++
        binding.HostPort ++ lit ":" ++ entry.1 ++ lit " ") := rfl
  have h1 : lit "--privileged" ++ lit " " = lit "--privileged " := by decide
  have h2 : lit "-d" ++ (lit " " ++ ([] : Str)) = lit "-d " := by decide
  have h3 : lit "-t" ++ lit " " = lit "-t " := by decide
  have h4 : lit "--rm" ++ lit " " = lit "--rm " := by decide
  have h5 : lit "\"" ++ lit " " = lit "\" " := by decide
  simp only [specFormat, specTokens, specRuleTable, List.flatMap_cons, List.flatMap_nil,
    List.append_nil, joinTokens_append, segments, List.flatten, hcmd, joinTokens_ite,
    addLinks_eq, addDevices_eq, addEnv_eq, addPortBindings_eq, addVolumes_eq, addDNS_eq,
    addDNSSearch_eq, addExtraHosts_eq, List.nil_append]
  simp only [joinTokens, List.flatMap_map, List.flatMap_cons, List.flatMap_nil, List.append_nil,
    addMacAddress, addCpusetCpus, addCpusetMems, addMemory, addMemoryReservation, addPrivileged,
    addDetach, addTty, addRm, addUser, addNetwork, addWorkingDir, addRestart, addImage,
    List.nil_append, List.append_assoc, hdev1, hport, List.flatMap_assoc, h1, h3, h4, h5]
  rw [← List.append_assoc (lit "-d") (lit " "), ← List.append_nil (lit " "), h2]

/-! ## Clean texts -/

theorem clean_iff (F v : Str) :
    Clean F v ↔ ∀ S, S <:+ v → S ≠ [] → ¬ F <+: S ∧ ¬ S <+: F := by
  simp [Clean, List.mem_tails]

theorem clean_nil (F : Str) : Clean F [] := by
  rw [clean_iff]
  intro S hS hne
  exact absurd (List.suffix_nil.mp hS) hne

theorem clean_of_suffix {F v S : Str} (h : Clean F v) (hS : S <:+ v) : Clean F S := by
  rw [clean_iff] at h ⊢
  intro S1 hS1 hne
  exact h S1 (hS1.trans hS) hne

theorem clean_append {F a b : Str} (ha : Clean F a) (hb : Clean F b) : Clean F (a ++ b) := by
  induction a with
  | nil => simpa using hb
  | cons c a ih =>
    have hta : Clean F a := clean_of_suffix ha (List.suffix_cons c a)
    have hab := ih hta
    rw [clean_iff] at hab ⊢
    intro S hS hne
    rcases List.suffix_cons_iff.mp hS with h | h
    · subst h
      have hc := (clean_iff F (c :: a)).mp ha (c :: a) List.suffix_rfl (by simp)
      constructor
      · intro hF
        have hp : c :: a <+: c :: a ++ b := List.prefix_append _ _
        rcases List.prefix_or_prefix_of_prefix hF hp with h1 | h1
        · exact hc.1 h1
        · exact hc.2 h1
      · intro hF
        exact hc.2 ((List.prefix_append (c :: a) b).trans hF)
    · exact hab S h hne

theorem clean_flatten {F : Str} {L : List Str} (h : ∀ s ∈ L, Clean F s) : Clean F L.flatten := by
  induction L with
  | nil => exact clean_nil F
  | cons a L ih =>
    rw [List.flatten_cons]
    exact clean_append (h a (by simp)) (ih (fun s hs => h s (by simp [hs])))

theorem clean_flatMap {α : Type} {F : Str} {xs : List α} {f : α → Str}
    (h : ∀ x ∈ xs, Clean F (f x)) : Clean F (xs.flatMap f) := by
  induction xs with
  | nil => exact clean_nil F
  | cons a xs ih =>
    rw [List.flatMap_cons]
    exact clean_append (h a (by simp)) (ih (fun s hs => h s (by simp [hs])))

theorem clean_of_head_not_mem {F v : Str} {c : UInt8} (hF : F.head? = some c) (hc : c ∉ v) :
    Clean F v := by
  rw [clean_iff]
  intro S hS hne
  cases S with
  | nil => exact absurd rfl hne
  | cons d S1 =>
    have hd : d ∈ v := hS.subset (by simp)
    cases F with
    | nil => simp at hF
    | cons e F1 =>
      have he : e = c := by simpa using hF
      subst he
      constructor
      · intro hp
        have := (List.cons_prefix_cons.mp hp).1
        exact hc (this ▸ hd)
      · intro hp
        have := (List.cons_prefix_cons.mp hp).1
        exact hc (this ▸ hd)

theorem not_infix_of_clean {F v : Str} (hF : F ≠ []) (h : Clean F v) : ¬ F <:+: v := by
  rintro ⟨s, t, hst⟩
  have hS : F ++ t <:+ v := ⟨s, by rw [← hst, List.append_assoc]⟩
  have := (clean_iff F v).mp h (F ++ t) hS (by simp [hF])
  exact this.1 (List.prefix_append F t)

theorem digit_toNat (k : Nat) (h : k < 10) : ((48 + k).toUInt8).toNat = 48 + k := by
  interval_cases k <;> rfl

theorem digitsAux_mem (fuel : Nat) : ∀ (n : Nat) (acc : Str) (b : UInt8),
    b ∈ digitsAux fuel n acc → b ∈ acc ∨ (48 ≤ b.toNat ∧ b.toNat ≤ 57) := by
  induction fuel with
  | zero => intro n acc b h; exact Or.inl h
  | succ f ih =>
    intro n acc b h
    have hd := digit_toNat (n % 10) (Nat.mod_lt _ (by decide))
    have hlt : n % 10 < 10 := Nat.mod_lt _ (by decide)
    have key : b ∈ (48 + n % 10).toUInt8 :: acc → b ∈ acc ∨ (48 ≤ b.toNat ∧ b.toNat ≤ 57) := by
      intro hb
      rcases List.mem_cons.mp hb with h1 | h1
      · right
        rw [h1, hd]
        omega
      · exact Or.inl h1
    unfold digitsAux at h
    simp only at h
    split at h
    · exact key h
    · rcases ih _ _ _ h with h1 | h1
      · exact key h1
      · exact Or.inr h1

theorem formatUint_mem (n : Nat) (b : UInt8) (h : b ∈ formatUint n) :
    48 ≤ b.toNat ∧ b.toNat ≤ 57 := by
  rcases digitsAux_mem _ _ _ _ h with h1 | h1
  · simp at h1
  · exact h1

theorem digitsAux_decode (fuel : Nat) : ∀ (n : Nat) (acc : Str), n < fuel →
    (digitsAux fuel n acc).foldl (fun a b => a * 10 + (b.toNat - 48)) 0 =
      acc.foldl (fun a b => a * 10 + (b.toNat - 48)) n := by
  induction fuel with
  | zero => intro n acc h; omega
  | succ f ih =>
    intro n acc h
    have hd := digit_toNat (n % 10) (Nat.mod_lt _ (by decide))
    unfold digitsAux
    simp only
    split
    · rename_i h0
      have h1 : n % 10 = n := by omega
      simp only [List.foldl_cons, hd]
      congr 1
      omega
    · rename_i h0
      rw [ih (n / 10) _ (by omega)]
      simp only [List.foldl_cons, hd]
      congr 1
      omega

theorem decodeUint_formatUint (n : Nat) : decodeUint (formatUint n) = n := by
  unfold decodeUint formatUint
  rw [digitsAux_decode _ _ _ (Nat.lt_succ_self n)]
  simp

theorem formatUint_injective {n m : Nat} (h : formatUint n = formatUint m) : n = m := by
  have := congrArg decodeUint h
  simpa [decodeUint_formatUint] using this

theorem formatUint_ne_nil (n : Nat) : formatUint n ≠ [] := by
  unfold formatUint digitsAux
  simp only
  split
  · simp
  · intro h
    have : ∀ fuel m (acc : Str), acc ≠ [] → digitsAux fuel m acc ≠ [] := by
      intro fuel
      induction fuel with
      | zero => intro m acc ha; simpa [digitsAux] using ha
      | succ f ih =>
        intro m acc ha
        unfold digitsAux
        simp only
        split
        · simp
        · exact ih _ _ (by simp)
    exact this _ _ _ (by simp) h

/-! ## Every segment is clean when its literals and the values are -/

theorem clean_Sprintf_d {F : Str} (hF : F.head? = some 45) (m : Int) (hm : m > 0) :
    Clean F (Sprintf_d m) := by
  cases m with
  | ofNat n =>
    apply clean_of_head_not_mem hF
    intro h
    have := formatUint_mem n 45 h
    exact absurd this.1 (by decide)
  | negSucc n => exact absurd hm (by simp [Int.negSucc_lt_zero])

theorem clean_stringsJoin {F : Str} (hsp : Clean F (lit " ")) :
    ∀ cmd : List Str, (∀ c ∈ cmd, Clean F c) → Clean F (stringsJoin cmd (lit " "))
  | [], _ => clean_nil F
  | [a], h => h a (by simp)
  | a :: b :: rest, h => by
    unfold stringsJoin
    exact clean_append (clean_append (h a (by simp)) hsp)
      (clean_stringsJoin hsp (b :: rest) (fun c hc => h c (List.mem_cons_of_mem _ hc)))

/-! ## The output around one block -/

theorem forall2_all {A B : Type} {R : A → B → Prop} {P : A → Prop} {Q : B → Prop}
    (hR : ∀ a b, R a b → P a → Q b) {la : List A} {lb : List B} (h : List.Forall₂ R la lb)
    (hP : ∀ a ∈ la, P a) : ∀ b ∈ lb, Q b := by
  induction h with
  | nil => intro b hb; simp at hb
  | cons hab _ ih =>
    intro b hb
    rcases List.mem_cons.mp hb with h1 | h1
    · subst h1
      exact hR _ _ hab (hP _ (by simp))
    · exact ih (fun a ha => hP a (List.mem_cons_of_mem _ ha)) b h1

theorem forall2_around {A B : Type} {R : A → B → Prop} {P : A → Prop} {Q : B → Prop}
    (hR : ∀ a b, R a b → P a → Q b) {la : List A} {lb : List B} (h : List.Forall₂ R la lb) :
    ∀ k, (∀ a ∈ la.eraseIdx k, P a) →
      (∀ b ∈ lb.take k, Q b) ∧ (∀ b ∈ lb.drop (k + 1), Q b) := by
  induction h with
  | nil => intro k _; simp
  | cons hab htl ih =>
    intro k hP
    cases k with
    | zero =>
      refine ⟨by simp, ?_⟩
      simpa using forall2_all hR htl (by simpa using hP)
    | succ k =>
      rw [List.eraseIdx_cons_succ] at hP
      have := ih k (fun a ha => hP a (List.mem_cons_of_mem _ ha))
      refine ⟨?_, by simpa using this.2⟩
      intro b hb
      rw [List.take_succ_cons] at hb
      rcases List.mem_cons.mp hb with h1 | h1
      · subst h1
        exact hR _ _ hab (hP _ (by simp))
      · exact this.1 b h1

theorem flatten_around (l : List Str) : ∀ k, k < l.length →
    l.flatten = (l.take k).flatten ++ l.getD k [] ++ (l.drop (k + 1)).flatten := by
  induction l with
  | nil => intro k hk; simp at hk
  | cons a l ih =>
    intro k hk
    cases k with
    | zero => simp
    | succ k =>
      have := ih k (by simpa using hk)
      simp only [List.flatten_cons, List.take_succ_cons, List.getD_cons_succ,
        List.drop_succ_cons, List.append_assoc]
      rw [this]
      simp [List.append_assoc]

theorem output_segment (i : Inspector) (k : Nat) (hname : i.container.Name ≠ [])
    (hk : k < 23) :
    ∃ pre post, GetRunlikeCommand i = some (pre ++ (segments i).getD k [] ++ post) := by
  refine ⟨lit "docker run " ++ (lit "--name " ++ i.container.Name.drop 1 ++ lit " ") ++
    ((segments i).take k).flatten, ((segments i).drop (k + 1)).flatten, ?_⟩
  rw [GetRunlikeCommand_eq_segments i hname, flatten_around (segments i) k (by simpa [segments])]
  simp [List.append_assoc]

theorem addDevice_nil (d : DeviceMapping) :
    addDevice [] d =
      (if d.CgroupPermissions ≠ [] then
        lit "--device " ++ d.PathOnHost ++ lit ":" ++ d.PathInContainer ++ lit ":" ++
          d.CgroupPermissions
      else lit "--device " ++ d.PathOnHost ++ lit ":" ++ d.PathInContainer) ++ lit " " := by
  unfold addDevice
  split <;> simp [List.append_assoc]

theorem Sprintf_d_injective_pos {a b : Int} (ha : a > 0) (h : Sprintf_d a = Sprintf_d b) :
    a = b := by
  cases a with
  | negSucc n => exact absurd ha (by simp [Int.negSucc_lt_zero])
  | ofNat n =>
    cases b with
    | ofNat m =>
      have := formatUint_injective h
      rw [this]
    | negSucc m =>
      exfalso
      have hm : (45 : UInt8) ∈ Sprintf_d (Int.negSucc m) := by
        have hl : lit "-" = [45] := by decide
        simp [Sprintf_d, hl]
      rw [← h] at hm
      have := formatUint_mem n 45 hm
      exact absurd this.1 (by decide)

/-! ## The literals of the other blocks are clean for each flag text -/

theorem GetRunlikeCommand_name_ne_nil {i : Inspector} {out : Str}
    (h : GetRunlikeCommand i = some out) : i.container.Name ≠ [] := by
  intro h0
  simp [GetRunlikeCommand, sliceFrom1, h0] at h

set_option maxRecDepth 100000 in
theorem lits_clean_absent_mac :
    ∀ L ∈ headLiterals ++ (segLiterals.eraseIdx 0).flatten, Clean (lit "--mac-address") L := by
  decide

set_option maxRecDepth 100000 in
theorem lits_clean_absent_cpus :
    ∀ L ∈ headLiterals ++ (segLiterals.eraseIdx 2).flatten, Clean (lit "--cpuset-cpus") L := by
  decide

set_option maxRecDepth 100000 in
theorem lits_clean_absent_mems :
    ∀ L ∈ headLiterals ++ (segLiterals.eraseIdx 3).flatten, Clean (lit "--cpuset-mems") L := by
  decide

set_option maxRecDepth 100000 in
theorem lits_clean_absent_memory :
    ∀ L ∈ headLiterals ++ (segLiterals.eraseIdx 5).flatten, Clean (lit "--memory ") L := by
  decide

set_option maxRecDepth 100000 in
theorem lits_clean_absent_reservation :
    ∀ L ∈ headLiterals ++ (segLiterals.eraseIdx 6).flatten, Clean (lit "--memory-reservation") L := by
  decide

set_option maxRecDepth 100000 in
theorem lits_clean_absent_privileged :
    ∀ L ∈ headLiterals ++ (segLiterals.eraseIdx 7).flatten, Clean (lit "--privileged") L := by
  decide

set_option maxRecDepth 100000 in
theorem lits_clean_absent_tty :
    ∀ L ∈ headLiterals ++ (segLiterals.eraseIdx 9).flatten, Clean (lit "-t ") L := by
  decide

set_option maxRecDepth 100000 in
theorem lits_clean_absent_rm :
    ∀ L ∈ headLiterals ++ (segLiterals.eraseIdx 10).flatten, Clean (lit "--rm") L := by
  decide

set_option maxRecDepth 100000 in
theorem lits_clean_absent_user :
    ∀ L ∈ headLiterals ++ (segLiterals.eraseIdx 11).flatten, Clean (lit "--user") L := by
  decide

set_option maxRecDepth 100000 in
theorem lits_clean_absent_network :
    ∀ L ∈ headLiterals ++ (segLiterals.eraseIdx 14).flatten, Clean (lit "--network") L := by
  decide

set_option maxRecDepth 100000 in
theorem lits_clean_absent_workdir :
    ∀ L ∈ headLiterals ++ (segLiterals.eraseIdx 16).flatten, Clean (lit "-w ") L := by
  decide

set_option maxRecDepth 100000 in
theorem lits_clean_absent_restart :
    ∀ L ∈ headLiterals ++ (segLiterals.eraseIdx 17).flatten, Clean (lit "--restart") L := by
  decide

theorem mem_dropLast_of_append_cons (w R : Str) (c : UInt8) (hR : R ≠ []) :
    c ∈ (w ++ c :: R).dropLast := by
  have e : w ++ c :: R = (w ++ [c]) ++ R := by simp
  rw [e, List.dropLast_append_of_ne_nil _ hR]
  simp

theorem not_unit_prefix {F w : Str} {c : UInt8} (hF : c ∉ F.dropLast)
    (hu : ¬ F <:+: w ++ [c]) : ¬ w ++ [c] <+: F := by
  rintro ⟨R, hR⟩
  by_cases h0 : R = []
  · subst h0
    rw [List.append_nil] at hR
    exact hu (hR ▸ List.infix_refl _)
  · apply hF
    rw [← hR]
    have e : w ++ [c] ++ R = w ++ c :: R := by simp
    rw [e]
    exact mem_dropLast_of_append_cons w R c h0

/-- A value followed by a separator literal is clean as soon as the flag text
does not occur in the value taken with the first byte of the separator. -/
theorem clean_unit {F sep : Str} {c : UInt8} (sep1 : Str) (hsep : sep = c :: sep1)
    (hF : c ∉ F.dropLast) (hs : Clean F sep) :
    ∀ v : Str, ¬ F <:+: v ++ [c] → Clean F (v ++ sep) := by
  intro v
  induction v with
  | nil => intro _; simpa using hs
  | cons a v ih =>
    intro hu
    have hu1 : ¬ F <:+: v ++ [c] := fun h => hu (by
      rw [List.cons_append]
      exact List.infix_cons h)
    have hrest := ih hu1
    rw [clean_iff] at hrest ⊢
    intro S hS hne
    rcases List.suffix_cons_iff.mp hS with h | h
    · subst h
      have hX : a :: v ++ [c] <+: a :: v ++ sep := by
        rw [hsep]
        exact ⟨sep1, by simp⟩
      have hnp := not_unit_prefix hF hu
      constructor
      · intro hp
        rcases List.prefix_or_prefix_of_prefix hp hX with h1 | h1
        · exact hu h1.isInfix
        · exact hnp h1
      · intro hp
        exact hnp (hX.trans hp)
    · exact hrest S h hne

theorem clean_unit_space {F v : Str} (hF : (32 : UInt8) ∉ F.dropLast) (hs : Clean F (lit " "))
    (hu : ¬ F <:+: v ++ lit " ") : Clean F (v ++ lit " ") :=
  clean_unit [] (by decide) hF hs v hu

theorem clean_unit_colon {F v : Str} (hF : (58 : UInt8) ∉ F.dropLast) (hs : Clean F (lit ":"))
    (hu : ¬ F <:+: v ++ lit ":") : Clean F (v ++ lit ":") :=
  clean_unit [] (by decide) hF hs v hu

theorem clean_unit_quote {F v : Str} (hF : (34 : UInt8) ∉ F.dropLast) (hs : Clean F (lit "\" "))
    (hu : ¬ F <:+: v ++ lit "\"") : Clean F (v ++ lit "\" ") :=
  clean_unit [32] (by decide) hF hs v hu

theorem mem_units_links (i : Inspector) {x : Str} (hx : x ∈ i.container.HostConfig.Links) :
    x ++ lit " " ∈ emittedUnits i := by
  have hm := List.mem_map_of_mem (fun link : Str => link ++ lit " ") hx
  simp only [emittedUnits, List.mem_append]
  tauto

theorem mem_units_device (i : Inspector) {x : DeviceMapping}
    (hx : x ∈ i.container.HostConfig.Devices) {u : Str}
    (hu : u ∈ (if x.CgroupPermissions ≠ [] then
          [x.PathOnHost ++ lit ":", x.PathInContainer ++ lit ":", x.CgroupPermissions ++ lit " "]
        else [x.PathOnHost ++ lit ":", x.PathInContainer ++ lit " "])) :
    u ∈ emittedUnits i := by
  have hm : u ∈ i.container.HostConfig.Devices.flatMap (fun device =>
      if device.CgroupPermissions ≠ [] then
        [device.PathOnHost ++ lit ":", device.PathInContainer ++ lit ":",
          device.CgroupPermissions ++ lit " "]
      else [device.PathOnHost ++ lit ":", device.PathInContainer ++ lit " "]) :=
    List.mem_flatMap.mpr ⟨x, hx, hu⟩
  simp only [emittedUnits, List.mem_append]
  tauto

theorem mem_units_port (i : Inspector) {e : Str × List PortBinding}
    (he : e ∈ i.container.HostConfig.PortBindings) {b : PortBinding} (hb : b ∈ e.2) {u : Str}
    (hu : u ∈ [b.HostIP ++ lit ":", b.HostPort ++ lit ":", e.1 ++ lit " "]) :
    u ∈ emittedUnits i := by
  have hm : u ∈ i.container.HostConfig.PortBindings.flatMap (fun entry =>
      entry.2.flatMap (fun binding =>
        [binding.HostIP ++ lit ":", binding.HostPort ++ lit ":", entry.1 ++ lit " "])) :=
    List.mem_flatMap.mpr ⟨e, he, List.mem_flatMap.mpr ⟨b, hb, hu⟩⟩
  simp only [emittedUnits, List.mem_append]
  tauto

theorem mem_units_env (i : Inspector) {x : Str} (hx : x ∈ i.container.Config.Env) :
    x ++ lit "\"" ∈ emittedUnits i := by
  have hm := List.mem_map_of_mem (fun env : Str => env ++ lit "\"") hx
  simp only [emittedUnits, List.mem_append]
  tauto

theorem mem_units_mount (i : Inspector) {x : MountPoint} (hx : x ∈ i.container.Mounts)
    {u : Str} (hu : u ∈ [x.Source ++ lit ":", x.Destination ++ lit " "]) :
    u ∈ emittedUnits i := by
  have hm : u ∈ i.container.Mounts.flatMap (fun mount =>
      [mount.Source ++ lit ":", mount.Destination ++ lit " "]) :=
    List.mem_flatMap.mpr ⟨x, hx, hu⟩
  simp only [emittedUnits, List.mem_append]
  tauto

theorem mem_units_dns (i : Inspector) {x : Str} (hx : x ∈ i.container.HostConfig.DNS) :
    x ++ lit " " ∈ emittedUnits i := by
  have hm := List.mem_map_of_mem (fun dns : Str => dns ++ lit " ") hx
  simp only [emittedUnits, List.mem_append]
  tauto

theorem mem_units_dnsSearch (i : Inspector) {x : Str}
    (hx : x ∈ i.container.HostConfig.DNSSearch) : x ++ lit " " ∈ emittedUnits i := by
  have hm := List.mem_map_of_mem (fun dnsSearch : Str => dnsSearch ++ lit " ") hx
  simp only [emittedUnits, List.mem_append]
  tauto

theorem mem_units_extraHosts (i : Inspector) {x : Str}
    (hx : x ∈ i.container.HostConfig.ExtraHosts) : x ++ lit " " ∈ emittedUnits i := by
  have hm := List.mem_map_of_mem (fun extraHost : Str => extraHost ++ lit " ") hx
  simp only [emittedUnits, List.mem_append]
  tauto

theorem mem_units_cmd (i : Inspector) {x : Str} (hx : x ∈ i.container.Config.Cmd) :
    x ++ lit " " ∈ emittedUnits i := by
  have hm := List.mem_map_of_mem (fun arg : Str => arg ++ lit " ") hx
  simp only [emittedUnits, List.mem_append]
  tauto

theorem addCmd_nil_eq_flatMap (i : Inspector) :
    addCmd i [] = i.container.Config.Cmd.flatMap (fun arg => arg ++ lit " ") := by
  unfold addCmd
  split
  · rename_i h
    rw [List.nil_append, stringsJoin_space _ (by intro h0; simp [h0] at h)]
    rfl
  · rename_i h
    have h0 : i.container.Config.Cmd = [] := by simpa using h
    simp [h0]

theorem segments_clean_units (F : Str) (i : Inspector) (hF : F.head? = some 45)
    (h32 : (32 : UInt8) ∉ F.dropLast) (h58 : (58 : UInt8) ∉ F.dropLast)
    (h34 : (34 : UInt8) ∉ F.dropLast)
    (hu : ∀ u ∈ emittedUnits i, ¬ F <:+: u) :
    List.Forall₂ (fun lits seg => (∀ L ∈ lits, Clean F L) → Clean F seg)
      segLiterals (segments i) := by
  have scalar : ∀ (L v : Str), Clean F L → Clean F (lit " ") → ¬ F <:+: v ++ lit " " →
      Clean F ([] ++ L ++ v ++ lit " ") := by
    intro L v hL hs hv
    rw [List.nil_append, List.append_assoc]
    exact clean_append hL (clean_unit_space h32 hs hv)
  have looped : ∀ (L v : Str), Clean F L → Clean F (lit " ") → ¬ F <:+: v ++ lit " " →
      Clean F (L ++ v ++ lit " ") := by
    intro L v hL hs hv
    rw [List.append_assoc]
    exact clean_append hL (clean_unit_space h32 hs hv)
  unfold segLiterals segments
  refine List.Forall₂.cons ?_ <| List.Forall₂.cons ?_ <| List.Forall₂.cons ?_ <|
    List.Forall₂.cons ?_ <| List.Forall₂.cons ?_ <| List.Forall₂.cons ?_ <|
    List.Forall₂.cons ?_ <| List.Forall₂.cons ?_ <| List.Forall₂.cons ?_ <|
    List.Forall₂.cons ?_ <| List.Forall₂.cons ?_ <| List.Forall₂.cons ?_ <|
    List.Forall₂.cons ?_ <| List.Forall₂.cons ?_ <| List.Forall₂.cons ?_ <|
    List.Forall₂.cons ?_ <| List.Forall₂.cons ?_ <| List.Forall₂.cons ?_ <|
    List.Forall₂.cons ?_ <| List.Forall₂.cons ?_ <| List.Forall₂.cons ?_ <|
    List.Forall₂.cons ?_ <| List.Forall₂.cons ?_ <| List.Forall₂.nil
  · intro hl
    unfold addMacAddress
    split
    · rename_i hne
      have hm : i.container.NetworkSettings.MacAddress ++ lit " " ∈ emittedUnits i := by
        simp [emittedUnits, hne]
      exact scalar _ _ (hl _ (by simp)) (hl _ (by simp)) (hu _ hm)
    · exact clean_nil F
  · intro hl
    rw [addLinks_eq, List.nil_append]
    refine clean_flatMap (fun x hx => ?_)
    exact looped _ _ (hl _ (by simp)) (hl _ (by simp)) (hu _ (mem_units_links i hx))
  · intro hl
    unfold addCpusetCpus
    split
    · rename_i hne
      have hm : i.container.HostConfig.CpusetCpus ++ lit " " ∈ emittedUnits i := by
        simp [emittedUnits, hne]
      exact scalar _ _ (hl _ (by simp)) (hl _ (by simp)) (hu _ hm)
    · exact clean_nil F
  · intro hl
    unfold addCpusetMems
    split
    · rename_i hne
      have hm : i.container.HostConfig.CpusetMems ++ lit " " ∈ emittedUnits i := by
        simp [emittedUnits, hne]
      exact scalar _ _ (hl _ (by simp)) (hl _ (by simp)) (hu _ hm)
    · exact clean_nil F
  · intro hl
    rw [addDevices_eq, List.nil_append]
    refine clean_flatMap (fun x hx => ?_)
    have hd : Clean F (lit "--device ") := hl _ (by simp)
    have hc : Clean F (lit ":") := hl _ (by simp)
    have hs : Clean F (lit " ") := hl _ (by simp)
    unfold addDevice
    simp only [List.nil_append]
    split
    · rename_i hp
      have e : lit "--device " ++ x.PathOnHost ++ lit ":" ++ x.PathInContainer ++ lit ":" ++
          x.CgroupPermissions ++ lit " " =
          lit "--device " ++ ((x.PathOnHost ++ lit ":") ++ ((x.PathInContainer ++ lit ":") ++
            (x.CgroupPermissions ++ lit " "))) := by simp [List.append_assoc]
      rw [e]
      have m1 := mem_units_device i hx (u := x.PathOnHost ++ lit ":") (by simp [hp])
      have m2 := mem_units_device i hx (u := x.PathInContainer ++ lit ":") (by simp [hp])
      have m3 := mem_units_device i hx (u := x.CgroupPermissions ++ lit " ") (by simp [hp])
      exact clean_append hd (clean_append (clean_unit_colon h58 hc (hu _ m1))
        (clean_append (clean_unit_colon h58 hc (hu _ m2)) (clean_unit_space h32 hs (hu _ m3))))
    · rename_i hp
      have e : lit "--device " ++ x.PathOnHost ++ lit ":" ++ x.PathInContainer ++ lit " " =
          lit "--device " ++ ((x.PathOnHost ++ lit ":") ++ (x.PathInContainer ++ lit " ")) := by
        simp [List.append_assoc]
      rw [e]
      have m1 := mem_units_device i hx (u := x.PathOnHost ++ lit ":") (by simp [hp])
      have m2 := mem_units_device i hx (u := x.PathInContainer ++ lit " ") (by simp [hp])
      exact clean_append hd (clean_append (clean_unit_colon h58 hc (hu _ m1))
        (clean_unit_space h32 hs (hu _ m2)))
  · intro hl
    unfold addMemory
    split
    · rename_i hm
      exact clean_append (clean_append (clean_append (clean_nil F) (hl _ (by simp)))
        (clean_Sprintf_d hF _ hm)) (hl _ (by simp))
    · exact clean_nil F
  · intro hl
    unfold addMemoryReservation
    split
    · rename_i hm
      exact clean_append (clean_append (clean_append (clean_nil F) (hl _ (by simp)))
        (clean_Sprintf_d hF _ hm)) (hl _ (by simp))
    · exact clean_nil F
  · intro hl
    unfold addPrivileged
    split
    · exact clean_append (clean_nil F) (hl _ (by simp))
    · exact clean_nil F
  · intro hl
    exact clean_append (clean_nil F) (hl _ (by simp))
  · intro hl
    unfold addTty
    split
    · exact clean_append (clean_nil F) (hl _ (by simp))
    · exact clean_nil F
  · intro hl
    unfold addRm
    split
    · exact clean_append (clean_nil F) (hl _ (by simp))
    · exact clean_nil F
  · intro hl
    unfold addUser
    split
    · rename_i hne
      have hm : i.container.Config.User ++ lit " " ∈ emittedUnits i := by
        simp [emittedUnits, hne]
      exact scalar _ _ (hl _ (by simp)) (hl _ (by simp)) (hu _ hm)
    · exact clean_nil F
  · intro hl
    rw [addEnv_eq, List.nil_append]
    refine clean_flatMap (fun x hx => ?_)
    rw [List.append_assoc]
    exact clean_append (hl _ (by simp))
      (clean_unit_quote h34 (hl _ (by simp)) (hu _ (mem_units_env i hx)))
  · intro hl
    rw [addPortBindings_eq, List.nil_append]
    refine clean_flatMap (fun e he => ?_)
    unfold portTokens
    refine clean_flatMap (fun b hb => ?_)
    have hc : Clean F (lit ":") := hl _ (by simp)
    have hs : Clean F (lit " ") := hl _ (by simp)
    have e1 : lit "-p " ++ b.HostIP ++ lit ":" ++ b.HostPort ++ lit ":" ++ e.1 ++ lit " " =
        lit "-p " ++ ((b.HostIP ++ lit ":") ++ ((b.HostPort ++ lit ":") ++ (e.1 ++ lit " "))) := by
      simp [List.append_assoc]
    rw [e1]
    have m1 := mem_units_port i he hb (u := b.HostIP ++ lit ":") (by simp)
    have m2 := mem_units_port i he hb (u := b.HostPort ++ lit ":") (by simp)
    have m3 := mem_units_port i he hb (u := e.1 ++ lit " ") (by simp)
    exact clean_append (hl _ (by simp)) (clean_append (clean_unit_colon h58 hc (hu _ m1))
      (clean_append (clean_unit_colon h58 hc (hu _ m2)) (clean_unit_space h32 hs (hu _ m3))))
  · intro hl
    unfold addNetwork
    split
    · rename_i hne
      have hm : i.container.HostConfig.NetworkMode ++ lit " " ∈ emittedUnits i := by
        simp [emittedUnits, hne]
      exact scalar _ _ (hl _ (by simp)) (hl _ (by simp)) (hu _ hm)
    · exact clean_nil F
  · intro hl
    rw [addVolumes_eq, List.nil_append]
    refine clean_flatMap (fun x hx => ?_)
    have e1 : lit "-v " ++ x.Source ++ lit ":" ++ x.Destination ++ lit " " =
        lit "-v " ++ ((x.Source ++ lit ":") ++ (x.Destination ++ lit " ")) := by
      simp [List.append_assoc]
    rw [e1]
    have m1 := mem_units_mount i hx (u := x.Source ++ lit ":") (by simp)
    have m2 := mem_units_mount i hx (u := x.Destination ++ lit " ") (by simp)
    exact clean_append (hl _ (by simp)) (clean_append
      (clean_unit_colon h58 (hl _ (by simp)) (hu _ m1))
      (clean_unit_space h32 (hl _ (by simp)) (hu _ m2)))
  · intro hl
    unfold addWorkingDir
    split
    · rename_i hne
      have hm : i.container.Config.WorkingDir ++ lit " " ∈ emittedUnits i := by
        simp [emittedUnits, hne]
      exact scalar _ _ (hl _ (by simp)) (hl _ (by simp)) (hu _ hm)
    · exact clean_nil F
  · intro hl
    unfold addRestart
    split
    · rename_i hne
      have hm : i.container.HostConfig.RestartPolicy.Name ++ lit " " ∈ emittedUnits i := by
        simp [emittedUnits, hne]
      exact scalar _ _ (hl _ (by simp)) (hl _ (by simp)) (hu _ hm)
    · exact clean_nil F
  · intro hl
    rw [addDNS_eq, List.nil_append]
    refine clean_flatMap (fun x hx => ?_)
    exact looped _ _ (hl _ (by simp)) (hl _ (by simp)) (hu _ (mem_units_dns i hx))
  · intro hl
    rw [addDNSSearch_eq, List.nil_append]
    refine clean_flatMap (fun x hx => ?_)
    exact looped _ _ (hl _ (by simp)) (hl _ (by simp)) (hu _ (mem_units_dnsSearch i hx))
  · intro hl
    rw [addExtraHosts_eq, List.nil_append]
    refine clean_flatMap (fun x hx => ?_)
    exact looped _ _ (hl _ (by simp)) (hl _ (by simp)) (hu _ (mem_units_extraHosts i hx))
  · intro hl
    unfold addImage
    rw [List.nil_append]
    have hm : i.container.Config.Image ++ lit " " ∈ emittedUnits i := by
      simp [emittedUnits]
    exact clean_unit_space h32 (hl _ (by simp)) (hu _ hm)
  · intro hl
    rw [addCmd_nil_eq_flatMap]
    refine clean_flatMap (fun x hx => ?_)
    exact clean_unit_space h32 (hl _ (by simp)) (hu _ (mem_units_cmd i hx))

theorem infix_flatMap_mem {α : Type} (f : α → Str) {xs : List α} {x : α} (hx : x ∈ xs) :
    f x <:+: xs.flatMap f := by
  induction xs with
  | nil => simp at hx
  | cons a xs ih =>
    rw [List.flatMap_cons]
    rcases List.mem_cons.mp hx with h | h
    · subst h
      exact (List.prefix_append _ _).isInfix
    · exact (ih h).trans (List.suffix_append _ _).isInfix

theorem infix_output_of_segment {i : Inspector} {out : Str}
    (h : GetRunlikeCommand i = some out) (k : Nat) (hk : k < 23) {u : Str}
    (hu : u <:+: (segments i).getD k []) : u <:+: out := by
  obtain ⟨pre, post, ho⟩ := output_segment i k (GetRunlikeCommand_name_ne_nil h) hk
  rw [h] at ho
  rw [Option.some.inj ho]
  exact hu.trans ⟨pre, post, rfl⟩

theorem units_in_output {i : Inspector} {out : Str} (h : GetRunlikeCommand i = some out) :
    ∀ u ∈ emittedUnits i, u <:+: out := by
  have hq : lit "\" " = lit "\"" ++ lit " " := by decide
  have scalar : ∀ (L v : Str), v ++ lit " " <:+: [] ++ L ++ v ++ lit " " :=
    fun L v => ⟨L, [], by simp only [List.append_assoc, List.append_nil, List.nil_append]⟩
  intro u hu
  simp only [emittedUnits, List.mem_append, List.mem_map, List.mem_flatMap] at hu
  rcases hu with (((((((((((((((((hu | hu) | hu) | hu) | hu) | hu) | hu) | hu) | hu) | hu) | hu)
    | hu) | hu) | hu) | hu) | hu) | hu) | hu)
  · -- the name
    have e := GetRunlikeCommand_eq_segments i (GetRunlikeCommand_name_ne_nil h)
    rw [h] at e
    rw [Option.some.inj e, List.mem_singleton.mp hu]
    exact ⟨lit "docker run " ++ lit "--name ", (segments i).flatten, by simp only [List.append_assoc, List.append_nil, List.nil_append]⟩
  · split at hu
    · rename_i hne
      rw [List.mem_singleton.mp hu]
      refine infix_output_of_segment h 0 (by decide) ?_
      simp only [segments, List.getD_cons_zero, addMacAddress, if_pos hne]
      exact scalar _ _
    · simp at hu
  · obtain ⟨a, ha, rfl⟩ := hu
    refine infix_output_of_segment h 1 (by decide) ?_
    have : (segments i).getD 1 [] = addLinks i [] := rfl
    rw [this, addLinks_eq, List.nil_append]
    exact (show a ++ lit " " <:+: lit "--link " ++ a ++ lit " " from
      ⟨lit "--link ", [], by simp only [List.append_assoc, List.append_nil, List.nil_append]⟩).trans
      (infix_flatMap_mem (fun link => lit "--link " ++ link ++ lit " ") ha)
  · split at hu
    · rename_i hne
      rw [List.mem_singleton.mp hu]
      refine infix_output_of_segment h 2 (by decide) ?_
      have : (segments i).getD 2 [] = addCpusetCpus i [] := rfl
      rw [this, addCpusetCpus, if_pos hne]
      exact scalar _ _
    · simp at hu
  · split at hu
    · rename_i hne
      rw [List.mem_singleton.mp hu]
      refine infix_output_of_segment h 3 (by decide) ?_
      have : (segments i).getD 3 [] = addCpusetMems i [] := rfl
      rw [this, addCpusetMems, if_pos hne]
      exact scalar _ _
    · simp at hu
  · obtain ⟨d, hd, hu⟩ := hu
    refine infix_output_of_segment h 4 (by decide) ?_
    have : (segments i).getD 4 [] = addDevices i [] := rfl
    rw [this, addDevices_eq, List.nil_append]
    have k1 : addDevice [] d <:+: i.container.HostConfig.Devices.flatMap (addDevice []) :=
      infix_flatMap_mem _ hd
    refine List.IsInfix.trans ?_ k1
    rw [addDevice_nil]
    split at hu
    · rename_i hp
      rw [if_pos hp]
      simp only [List.mem_cons, List.mem_singleton, List.mem_nil_iff, or_false] at hu
      rcases hu with rfl | rfl | rfl
      · exact ⟨lit "--device ", d.PathInContainer ++ lit ":" ++ d.CgroupPermissions ++ lit " ",
          by simp⟩
      · exact ⟨lit "--device " ++ d.PathOnHost ++ lit ":", d.CgroupPermissions ++ lit " ",
          by simp⟩
      · exact ⟨lit "--device " ++ d.PathOnHost ++ lit ":" ++ d.PathInContainer ++ lit ":", [],
          by simp⟩
    · rename_i hp
      rw [if_neg hp]
      simp only [List.mem_cons, List.mem_singleton, List.mem_nil_iff, or_false] at hu
      rcases hu with rfl | rfl
      · exact ⟨lit "--device ", d.PathInContainer ++ lit " ", by simp only [List.append_assoc, List.append_nil, List.nil_append]⟩
      · exact ⟨lit "--device " ++ d.PathOnHost ++ lit ":", [], by simp only [List.append_assoc, List.append_nil, List.nil_append]⟩
  · split at hu
    · rename_i hne
      rw [List.mem_singleton.mp hu]
      refine infix_output_of_segment h 11 (by decide) ?_
      have : (segments i).getD 11 [] = addUser i [] := rfl
      rw [this, addUser, if_pos hne]
      exact scalar _ _
    · simp at hu
  · obtain ⟨a, ha, rfl⟩ := hu
    refine infix_output_of_segment h 12 (by decide) ?_
    have : (segments i).getD 12 [] = addEnv i [] := rfl
    rw [this, addEnv_eq, List.nil_append]
    exact (show a ++ lit "\"" <:+: lit "-e \"" ++ a ++ lit "\" " from
      ⟨lit "-e \"", lit " ", by rw [hq]; simp only [List.append_assoc, List.append_nil, List.nil_append]⟩).trans
      (infix_flatMap_mem (fun env => lit "-e \"" ++ env ++ lit "\" ") ha)
  · obtain ⟨e, he, b, hb, hu⟩ := hu
    refine infix_output_of_segment h 13 (by decide) ?_
    have : (segments i).getD 13 [] = addPortBindings i [] := rfl
    rw [this, addPortBindings_eq, List.nil_append]
    have k1 : portTokens e <:+: i.container.HostConfig.PortBindings.flatMap portTokens :=
      infix_flatMap_mem portTokens he
    have k2 : lit "-p " ++ b.HostIP ++ lit ":" ++ b.HostPort ++ lit ":" ++ e.1 ++ lit " " <:+:
        portTokens e :=
      infix_flatMap_mem (fun binding : PortBinding =>
        lit "-p " ++ binding.HostIP ++ lit ":" ++ binding.HostPort ++ lit ":" ++ e.1 ++ lit " ") hb
    refine List.IsInfix.trans ?_ (k2.trans k1)
    simp only [List.mem_cons, List.mem_singleton, List.mem_nil_iff, or_false] at hu
    rcases hu with rfl | rfl | rfl
    · exact ⟨lit "-p ", b.HostPort ++ lit ":" ++ e.1 ++ lit " ", by simp only [List.append_assoc, List.append_nil, List.nil_append]⟩
    · exact ⟨lit "-p " ++ b.HostIP ++ lit ":", e.1 ++ lit " ", by simp only [List.append_assoc, List.append_nil, List.nil_append]⟩
    · exact ⟨lit "-p " ++ b.HostIP ++ lit ":" ++ b.HostPort ++ lit ":", [], by simp only [List.append_assoc, List.append_nil, List.nil_append]⟩
  · split at hu
    · rename_i hne
      rw [List.mem_singleton.mp hu]
      refine infix_output_of_segment h 14 (by decide) ?_
      have : (segments i).getD 14 [] = addNetwork i [] := rfl
      rw [this, addNetwork, if_pos hne]
      exact scalar _ _
    · simp at hu
  · obtain ⟨m, hm, hu⟩ := hu
    refine infix_output_of_segment h 15 (by decide) ?_
    have : (segments i).getD 15 [] = addVolumes i [] := rfl
    rw [this, addVolumes_eq, List.nil_append]
    have k1 : lit "-v " ++ m.Source ++ lit ":" ++ m.Destination ++ lit " " <:+:
        i.container.Mounts.flatMap (fun mount =>
          lit "-v " ++ mount.Source ++ lit ":" ++ mount.Destination ++ lit " ") :=
      infix_flatMap_mem (fun mount : MountPoint =>
        lit "-v " ++ mount.Source ++ lit ":" ++ mount.Destination ++ lit " ") hm
    refine List.IsInfix.trans ?_ k1
    simp only [List.mem_cons, List.mem_singleton, List.mem_nil_iff, or_false] at hu
    rcases hu with rfl | rfl
    · exact ⟨lit "-v ", m.Destination ++ lit " ", by simp only [List.append_assoc, List.append_nil, List.nil_append]⟩
    · exact ⟨lit "-v " ++ m.Source ++ lit ":", [], by simp only [List.append_assoc, List.append_nil, List.nil_append]⟩
  · split at hu
    · rename_i hne
      rw [List.mem_singleton.mp hu]
      refine infix_output_of_segment h 16 (by decide) ?_
      have : (segments i).getD 16 [] = addWorkingDir i [] := rfl
      rw [this, addWorkingDir, if_pos hne]
      exact scalar _ _
    · simp at hu
  · split at hu
    · rename_i hne
      rw [List.mem_singleton.mp hu]
      refine infix_output_of_segment h 17 (by decide) ?_
      have : (segments i).getD 17 [] = addRestart i [] := rfl
      rw [this, addRestart, if_pos hne]
      exact scalar _ _
    · simp at hu
  · obtain ⟨a, ha, rfl⟩ := hu
    refine infix_output_of_segment h 18 (by decide) ?_
    have : (segments i).getD 18 [] = addDNS i [] := rfl
    rw [this, addDNS_eq, List.nil_append]
    exact (show a ++ lit " " <:+: lit "--dns " ++ a ++ lit " " from
      ⟨lit "--dns ", [], by simp only [List.append_assoc, List.append_nil, List.nil_append]⟩).trans
      (infix_flatMap_mem (fun dns => lit "--dns " ++ dns ++ lit " ") ha)
  · obtain ⟨a, ha, rfl⟩ := hu
    refine infix_output_of_segment h 19 (by decide) ?_
    have : (segments i).getD 19 [] = addDNSSearch i [] := rfl
    rw [this, addDNSSearch_eq, List.nil_append]
    exact (show a ++ lit " " <:+: lit "--dns-search " ++ a ++ lit " " from
      ⟨lit "--dns-search ", [], by simp only [List.append_assoc, List.append_nil, List.nil_append]⟩).trans
      (infix_flatMap_mem (fun d => lit "--dns-search " ++ d ++ lit " ") ha)
  · obtain ⟨a, ha, rfl⟩ := hu
    refine infix_output_of_segment h 20 (by decide) ?_
    have : (segments i).getD 20 [] = addExtraHosts i [] := rfl
    rw [this, addExtraHosts_eq, List.nil_append]
    exact (show a ++ lit " " <:+: lit "--add-host " ++ a ++ lit " " from
      ⟨lit "--add-host ", [], by simp only [List.append_assoc, List.append_nil, List.nil_append]⟩).trans
      (infix_flatMap_mem (fun x => lit "--add-host " ++ x ++ lit " ") ha)
  · rw [List.mem_singleton.mp hu]
    refine infix_output_of_segment h 21 (by decide) ?_
    have : (segments i).getD 21 [] = addImage i [] := rfl
    rw [this, addImage]
    exact ⟨[], [], by simp only [List.append_assoc, List.append_nil, List.nil_append]⟩
  · obtain ⟨a, ha, rfl⟩ := hu
    refine infix_output_of_segment h 22 (by decide) ?_
    have : (segments i).getD 22 [] = addCmd i [] := rfl
    rw [this, addCmd_nil_eq_flatMap]
    exact infix_flatMap_mem (fun arg => arg ++ lit " ") ha

theorem clean_around_units (F : Str) (i : Inspector) (k : Nat) (hF : F.head? = some 45)
    (h32 : (32 : UInt8) ∉ F.dropLast) (h58 : (58 : UInt8) ∉ F.dropLast)
    (h34 : (34 : UInt8) ∉ F.dropLast)
    (hu : ∀ u ∈ emittedUnits i, ¬ F <:+: u)
    (hl : ∀ L ∈ headLiterals ++ (segLiterals.eraseIdx k).flatten, Clean F L) :
    Clean F (lit "docker run " ++ (lit "--name " ++ i.container.Name.drop 1 ++ lit " ") ++
        ((segments i).take k).flatten) ∧
      Clean F ((segments i).drop (k + 1)).flatten := by
  have hseg := forall2_around
    (P := fun lits => ∀ L ∈ lits, Clean F L) (Q := fun seg => Clean F seg)
    (fun _ _ hab hp => hab hp) (segments_clean_units F i hF h32 h58 h34 hu) k
    (fun a ha L hL => hl L (List.mem_append_right _ (List.mem_flatten.mpr ⟨a, ha, hL⟩)))
  refine ⟨?_, clean_flatten hseg.2⟩
  have hm : i.container.Name.drop 1 ++ lit " " ∈ emittedUnits i := by
    simp [emittedUnits]
  have h1 : Clean F (lit "docker run ") := hl _ (by simp [headLiterals])
  have h2 : Clean F (lit "--name ") := hl _ (by simp [headLiterals])
  have h3 : Clean F (lit " ") := hl _ (by simp [headLiterals])
  have hn : Clean F (lit "--name " ++ i.container.Name.drop 1 ++ lit " ") := by
    rw [List.append_assoc]
    exact clean_append h2 (clean_unit_space h32 h3 (hu _ hm))
  exact clean_append (clean_append h1 hn) (clean_flatten hseg.1)

theorem output_split_at (i : Inspector) (k : Nat) (out : Str)
    (h : GetRunlikeCommand i = some out) (hk : k < 23) :
    out = (lit "docker run " ++ (lit "--name " ++ i.container.Name.drop 1 ++ lit " ") ++
        ((segments i).take k).flatten) ++ (segments i).getD k [] ++
      ((segments i).drop (k + 1)).flatten := by
  have e := GetRunlikeCommand_eq_segments i (GetRunlikeCommand_name_ne_nil h)
  rw [h, flatten_around (segments i) k (by simpa [segments])] at e
  rw [Option.some.inj e]
  simp [List.append_assoc]

/-- With the block of a flag appending nothing, the flag text occurs in the
output exactly when it occurs in an emitted value taken with its separator. -/
theorem absent_iff_units (F : Str) (i : Inspector) (k : Nat) (out : Str)
    (h : GetRunlikeCommand i = some out) (hF : F.head? = some 45)
    (h32 : (32 : UInt8) ∉ F.dropLast) (h58 : (58 : UInt8) ∉ F.dropLast)
    (h34 : (34 : UInt8) ∉ F.dropLast) (hk : k < 23)
    (hl : ∀ L ∈ headLiterals ++ (segLiterals.eraseIdx k).flatten, Clean F L)
    (hseg : (segments i).getD k [] = []) :
    F <:+: out ↔ ∃ u ∈ emittedUnits i, F <:+: u := by
  constructor
  · intro hin
    by_contra hcon
    have hu : ∀ u ∈ emittedUnits i, ¬ F <:+: u := fun u hu hF => hcon ⟨u, hu, hF⟩
    have hc := clean_around_units F i k hF h32 h58 h34 hu hl
    have ho := output_split_at i k out h hk
    rw [hseg, List.append_nil] at ho
    have hne : F ≠ [] := by
      intro h0
      simp [h0] at hF
    rw [ho] at hin
    exact not_infix_of_clean hne (clean_append hc.1 hc.2) hin
  · rintro ⟨u, hu, hin⟩
    exact hin.trans (units_in_output h u hu)

set_option maxRecDepth 100000 in
/-- C1: on the descriptor of the end-to-end scenario (name `/app`, image
`nginx:latest`, memory 536870912, not privileged, tty, env `X=1`, every other
field empty) the formatter returns exactly
`docker run --name app --memory 536870912 -d -t -e "X=1" nginx:latest ` with the
single trailing space. -/
theorem C1_scenario_output :
    GetRunlikeCommand scenarioInspector =
      some (lit "docker run --name app --memory 536870912 -d -t -e \"X=1\" nginx:latest ") := by
  decide

/-- C2: for every descriptor with a non-empty name the accumulated string of
`GetRunlikeCommand` equals `docker run ` followed by the tokens of the rule
table, visited in the fixed order of the spec, each followed by one space. -/
theorem C2_token_list_refinement (i : Inspector) (h : i.container.Name ≠ []) :
    GetRunlikeCommand i = some (specFormat i) := by
  rw [GetRunlikeCommand_eq_segments i h, specFormat_eq]

set_option maxRecDepth 100000 in
theorem C2_token_list_refinement_witness :
    scenarioInspector.container.Name ≠ [] ∧
      GetRunlikeCommand scenarioInspector = some (specFormat scenarioInspector) :=
  ⟨by decide, C2_token_list_refinement scenarioInspector (by decide)⟩

set_option maxRecDepth 100000 in
/-- C4, the claim fails: with the stored name `//x` (that is `/` followed by
`/x`) the output begins with `docker run --name /x `, so a leading separator is
retained in the emitted name. -/
theorem C4_second_separator_retained :
    ¬ ∀ (i : Inspector) (n out : Str), i.container.Name = lit "/" ++ n →
      GetRunlikeCommand i = some out →
      lit "docker run --name " ++ n ++ lit " " <+: out ∧
        ¬ lit "docker run --name /" <+: out := by
  intro h
  have h1 := h doubleSlashInspector (lit "/x") (lit "docker run --name /x -d  ")
    (by decide) (by decide)
  exact h1.2 (by decide)

/-- C4, amended: for every string `n`, a descriptor whose stored name is `/`
followed by `n` produces an output that begins with `docker run --name `
followed by `n` and a space (exactly the first byte is removed); the emitted
name begins with a separator exactly when `n` itself begins with one. -/
theorem C4_name_stripped (i : Inspector) (n : Str) (h : i.container.Name = lit "/" ++ n) :
    ∃ rest, GetRunlikeCommand i = some (lit "docker run --name " ++ n ++ lit " " ++ rest) ∧
      (lit "docker run --name /" <+: lit "docker run --name " ++ n ++ lit " " ++ rest ↔
        lit "/" <+: n) := by
  have hne : i.container.Name ≠ [] := by
    rw [h]
    have hl : lit "/" = [47] := by decide
    rw [hl]
    simp
  have hdrop : i.container.Name.drop 1 = n := by
    rw [h]
    rfl
  refine ⟨(segments i).flatten, ?_, ?_⟩
  · have e : lit "docker run --name " = lit "docker run " ++ lit "--name " := by decide
    rw [GetRunlikeCommand_eq_segments i hne, hdrop, e]
    simp [List.append_assoc]
  · have e : lit "docker run --name /" = lit "docker run --name " ++ lit "/" := by decide
    rw [e, List.append_assoc, List.append_assoc, List.prefix_append_right_inj]
    cases n with
    | nil =>
      have : ¬ lit "/" <+: lit " " ++ (segments i).flatten := by
        intro hp
        have hl : lit "/" = [47] := by decide
        have hs : lit " " = [32] := by decide
        rw [hl, hs] at hp
        have := (List.cons_prefix_cons.mp hp).1
        exact absurd this (by decide)
      simp only [List.nil_append]
      constructor
      · intro hp
        exact absurd hp this
      · intro hp
        have hl : lit "/" = [47] := by decide
        rw [hl] at hp
        simp at hp
    | cons c n =>
      have hl : lit "/" = [47] := by decide
      rw [hl]
      simp [List.cons_prefix_cons]

set_option maxRecDepth 100000 in
theorem C4_name_stripped_witness :
    scenarioInspector.container.Name = lit "/" ++ lit "app" ∧
      ∃ rest, GetRunlikeCommand scenarioInspector =
          some (lit "docker run --name " ++ lit "app" ++ lit " " ++ rest) ∧
        (lit "docker run --name /" <+: lit "docker run --name " ++ lit "app" ++ lit " " ++ rest ↔
          lit "/" <+: lit "app") :=
  ⟨by decide, C4_name_stripped scenarioInspector (lit "app") (by decide)⟩

set_option maxRecDepth 100000 in
/-- C5, the claim fails: with the stored name `/web-t`, tty false and every
other conditional field empty, the output `docker run --name web-t -d nginx `
contains the flag text `-t `. -/
theorem C5_flag_text_from_name :
    ¬ ∀ (i : Inspector) (out : Str), GetRunlikeCommand i = some out →
      i.container.Config.Tty = false → ¬ lit "-t " <:+: out := by
  intro h
  have h1 := h hyphenNameInspector (lit "docker run --name web-t -d nginx ")
    (by decide) (by decide)
  exact h1 ⟨lit "docker run --name web", lit "-d nginx ", by decide⟩

/-- C5, amended: whenever a conditional field is empty or default, the flag
text of that field is absent from the output unless it occurs in a value that
the formatter writes for another field, taken together with the separator byte
that follows that value (a space, a colon, or the closing double quote of an env
entry); in that case, and only then, the flag text is in the output.  This for
`--mac-address`, `--cpuset-cpus`, `--cpuset-mems`, `--memory `,
`--memory-reservation`, `--privileged`, `-t `, `--rm`, `--user`, `--network`,
`-w ` and `--restart`. -/
theorem C5_absent_flags (i : Inspector) (out : Str) (h : GetRunlikeCommand i = some out) :
    (i.container.NetworkSettings.MacAddress = [] →
      (lit "--mac-address" <:+: out ↔ ∃ u ∈ emittedUnits i, lit "--mac-address" <:+: u)) ∧
    (i.container.HostConfig.CpusetCpus = [] →
      (lit "--cpuset-cpus" <:+: out ↔ ∃ u ∈ emittedUnits i, lit "--cpuset-cpus" <:+: u)) ∧
    (i.container.HostConfig.CpusetMems = [] →
      (lit "--cpuset-mems" <:+: out ↔ ∃ u ∈ emittedUnits i, lit "--cpuset-mems" <:+: u)) ∧
    (i.container.HostConfig.Memory = 0 →
      (lit "--memory " <:+: out ↔ ∃ u ∈ emittedUnits i, lit "--memory " <:+: u)) ∧
    (i.container.HostConfig.MemoryReservation = 0 →
      (lit "--memory-reservation" <:+: out ↔ ∃ u ∈ emittedUnits i, lit "--memory-reservation" <:+: u)) ∧
    (i.container.HostConfig.Privileged = false →
      (lit "--privileged" <:+: out ↔ ∃ u ∈ emittedUnits i, lit "--privileged" <:+: u)) ∧
    (i.container.Config.Tty = false →
      (lit "-t " <:+: out ↔ ∃ u ∈ emittedUnits i, lit "-t " <:+: u)) ∧
    (i.container.HostConfig.AutoRemove = false →
      (lit "--rm" <:+: out ↔ ∃ u ∈ emittedUnits i, lit "--rm" <:+: u)) ∧
    (i.container.Config.User = [] →
      (lit "--user" <:+: out ↔ ∃ u ∈ emittedUnits i, lit "--user" <:+: u)) ∧
    (i.container.HostConfig.NetworkMode = [] →
      (lit "--network" <:+: out ↔ ∃ u ∈ emittedUnits i, lit "--network" <:+: u)) ∧
    (i.container.Config.WorkingDir = [] →
      (lit "-w " <:+: out ↔ ∃ u ∈ emittedUnits i, lit "-w " <:+: u)) ∧
    (i.container.HostConfig.RestartPolicy.Name = [] →
      (lit "--restart" <:+: out ↔ ∃ u ∈ emittedUnits i, lit "--restart" <:+: u)) := by
  refine ⟨?_, ?_, ?_, ?_, ?_, ?_, ?_, ?_, ?_, ?_, ?_, ?_⟩
  · intro hf
    exact absent_iff_units (lit "--mac-address") i 0 out h (by decide) (by decide) (by decide)
      (by decide) (by decide) lits_clean_absent_mac (by simp [segments, addMacAddress, hf])
  · intro hf
    exact absent_iff_units (lit "--cpuset-cpus") i 2 out h (by decide) (by decide) (by decide)
      (by decide) (by decide) lits_clean_absent_cpus (by simp [segments, addCpusetCpus, hf])
  · intro hf
    exact absent_iff_units (lit "--cpuset-mems") i 3 out h (by decide) (by decide) (by decide)
      (by decide) (by decide) lits_clean_absent_mems (by simp [segments, addCpusetMems, hf])
  · intro hf
    exact absent_iff_units (lit "--memory ") i 5 out h (by decide) (by decide) (by decide)
      (by decide) (by decide) lits_clean_absent_memory (by simp [segments, addMemory, hf])
  · intro hf
    exact absent_iff_units (lit "--memory-reservation") i 6 out h (by decide) (by decide) (by decide)
      (by decide) (by decide) lits_clean_absent_reservation (by simp [segments, addMemoryReservation, hf])
  · intro hf
    exact absent_iff_units (lit "--privileged") i 7 out h (by decide) (by decide) (by decide)
      (by decide) (by decide) lits_clean_absent_privileged (by simp [segments, addPrivileged, hf])
  · intro hf
    exact absent_iff_units (lit "-t ") i 9 out h (by decide) (by decide) (by decide)
      (by decide) (by decide) lits_clean_absent_tty (by simp [segments, addTty, hf])
  · intro hf
    exact absent_iff_units (lit "--rm") i 10 out h (by decide) (by decide) (by decide)
      (by decide) (by decide) lits_clean_absent_rm (by simp [segments, addRm, hf])
  · intro hf
    exact absent_iff_units (lit "--user") i 11 out h (by decide) (by decide) (by decide)
      (by decide) (by decide) lits_clean_absent_user (by simp [segments, addUser, hf])
  · intro hf
    exact absent_iff_units (lit "--network") i 14 out h (by decide) (by decide) (by decide)
      (by decide) (by decide) lits_clean_absent_network (by simp [segments, addNetwork, hf])
  · intro hf
    exact absent_iff_units (lit "-w ") i 16 out h (by decide) (by decide) (by decide)
      (by decide) (by decide) lits_clean_absent_workdir (by simp [segments, addWorkingDir, hf])
  · intro hf
    exact absent_iff_units (lit "--restart") i 17 out h (by decide) (by decide) (by decide)
      (by decide) (by decide) lits_clean_absent_restart (by simp [segments, addRestart, hf])

set_option maxRecDepth 100000 in
theorem C5_absent_flags_witness :
    (GetRunlikeCommand hyphenEndInspector = some (lit "docker run --name web- -d nginx cat - ") ∧
    ¬ lit "--mac-address" <:+: lit "docker run --name web- -d nginx cat - " ∧
    ¬ lit "--cpuset-cpus" <:+: lit "docker run --name web- -d nginx cat - " ∧
    ¬ lit "--cpuset-mems" <:+: lit "docker run --name web- -d nginx cat - " ∧
    ¬ lit "--memory " <:+: lit "docker run --name web- -d nginx cat - " ∧
    ¬ lit "--memory-reservation" <:+: lit "docker run --name web- -d nginx cat - " ∧
    ¬ lit "--privileged" <:+: lit "docker run --name web- -d nginx cat - " ∧
    ¬ lit "-t " <:+: lit "docker run --name web- -d nginx cat - " ∧
    ¬ lit "--rm" <:+: lit "docker run --name web- -d nginx cat - " ∧
    ¬ lit "--user" <:+: lit "docker run --name web- -d nginx cat - " ∧
    ¬ lit "--network" <:+: lit "docker run --name web- -d nginx cat - " ∧
    ¬ lit "-w " <:+: lit "docker run --name web- -d nginx cat - " ∧
    ¬ lit "--restart" <:+: lit "docker run --name web- -d nginx cat - ") ∧
    (hyphenNameInspector.container.Config.Tty = false ∧
      (∃ u ∈ emittedUnits hyphenNameInspector, lit "-t " <:+: u) ∧
      lit "-t " <:+: lit "docker run --name web-t -d nginx ") := by
  have hyphenEndInspector_output : GetRunlikeCommand hyphenEndInspector =
      some (lit "docker run --name web- -d nginx cat - ") := by decide
  have hyphenNameInspector_output : GetRunlikeCommand hyphenNameInspector =
      some (lit "docker run --name web-t -d nginx ") := by decide
  exact ⟨⟨hyphenEndInspector_output,
   fun hin => absurd
     (((C5_absent_flags hyphenEndInspector _ hyphenEndInspector_output).1
       (by decide)).mp hin) (by decide),
   fun hin => absurd
     (((C5_absent_flags hyphenEndInspector _ hyphenEndInspector_output).2.1
       (by decide)).mp hin) (by decide),
   fun hin => absurd
     (((C5_absent_flags hyphenEndInspector _ hyphenEndInspector_output).2.2.1
       (by decide)).mp hin) (by decide),
   fun hin => absurd
     (((C5_absent_flags hyphenEndInspector _ hyphenEndInspector_output).2.2.2.1
       (by decide)).mp hin) (by decide),
   fun hin => absurd
     (((C5_absent_flags hyphenEndInspector _ hyphenEndInspector_output).2.2.2.2.1
       (by decide)).mp hin) (by decide),
   fun hin => absurd
     (((C5_absent_flags hyphenEndInspector _ hyphenEndInspector_output).2.2.2.2.2.1
       (by decide)).mp hin) (by decide),
   fun hin => absurd
     (((C5_absent_flags hyphenEndInspector _ hyphenEndInspector_output).2.2.2.2.2.2.1
       (by decide)).mp hin) (by decide),
   fun hin => absurd
     (((C5_absent_flags hyphenEndInspector _ hyphenEndInspector_output).2.2.2.2.2.2.2.1
       (by decide)).mp hin) (by decide),
   fun hin => absurd
     (((C5_absent_flags hyphenEndInspector _ hyphenEndInspector_output).2.2.2.2.2.2.2.2.1
       (by decide)).mp hin) (by decide),
   fun hin => absurd
     (((C5_absent_flags hyphenEndInspector _ hyphenEndInspector_output).2.2.2.2.2.2.2.2.2.1
       (by decide)).mp hin) (by decide),
   fun hin => absurd
     (((C5_absent_flags hyphenEndInspector _ hyphenEndInspector_output).2.2.2.2.2.2.2.2.2.2.1
       (by decide)).mp hin) (by decide),
   fun hin => absurd
     (((C5_absent_flags hyphenEndInspector _ hyphenEndInspector_output).2.2.2.2.2.2.2.2.2.2.2
       (by decide)).mp hin) (by decide)⟩,
   ⟨by decide, by decide,
    ((C5_absent_flags hyphenNameInspector _ hyphenNameInspector_output).2.2.2.2.2.2.1
      (by decide)).mpr (by decide)⟩⟩

/-- C7: for every descriptor with a non-empty name the output contains the
detach token `-d ` and, somewhere after it, the image reference followed by a
space. -/
theorem C7_detach_then_image (i : Inspector) (h : i.container.Name ≠ []) :
    ∃ a b c, GetRunlikeCommand i =
      some (a ++ lit "-d " ++ b ++ i.container.Config.Image ++ lit " " ++ c) := by
  refine ⟨lit "docker run " ++ (lit "--name " ++ i.container.Name.drop 1 ++ lit " ") ++
      ((segments i).take 8).flatten,
    (((segments i).drop 9).take 12).flatten, addCmd i [], ?_⟩
  rw [GetRunlikeCommand_eq_segments i h]
  simp [segments, addDetach, addImage, List.append_assoc]

set_option maxRecDepth 100000 in
theorem C7_detach_then_image_witness :
    scenarioInspector.container.Name ≠ [] ∧
      ∃ a b c, GetRunlikeCommand scenarioInspector =
        some (a ++ lit "-d " ++ b ++ scenarioInspector.container.Config.Image ++ lit " " ++ c) :=
  ⟨by decide, C7_detach_then_image scenarioInspector (by decide)⟩

/-- C8: for every descriptor (with a non-empty name, so that there is an
output) the output contains, as one contiguous substring, `-e "e" ` for each
entry `e` of the env list, in the order of the list, every entry kept and
wrapped in double quotes verbatim; with env `A=1`, `B=2` the output contains
`-e "A=1" -e "B=2"`. -/
theorem C8_env_in_order (i : Inspector) (h : i.container.Name ≠ []) :
    ∃ out, GetRunlikeCommand i = some out ∧
      i.container.Config.Env.flatMap (fun e => lit "-e \"" ++ e ++ lit "\" ") <:+: out ∧
      (i.container.Config.Env = [lit "A=1", lit "B=2"] →
        lit "-e \"A=1\" -e \"B=2\"" <:+: out) := by
  obtain ⟨pre, post, ho⟩ := output_segment i 12 h (by decide)
  have hseg : (segments i).getD 12 [] =
      i.container.Config.Env.flatMap (fun e => lit "-e \"" ++ e ++ lit "\" ") := by
    simp [segments, addEnv_eq]
  rw [hseg] at ho
  refine ⟨_, ho, ⟨pre, post, rfl⟩, ?_⟩
  intro he
  rw [he]
  have e : [lit "A=1", lit "B=2"].flatMap (fun e => lit "-e \"" ++ e ++ lit "\" ") =
      lit "-e \"A=1\" -e \"B=2\"" ++ lit " " := by decide
  rw [e]
  exact ⟨pre, lit " " ++ post, by simp [List.append_assoc]⟩

set_option maxRecDepth 100000 in
theorem C8_env_in_order_witness :
    envInspector.container.Name ≠ [] ∧
      ∃ out, GetRunlikeCommand envInspector = some out ∧
        lit "-e \"A=1\" -e \"B=2\" " <:+: out ∧ lit "-e \"A=1\" -e \"B=2\"" <:+: out :=
  ⟨by decide,
    match C8_env_in_order envInspector (by decide) with
    | ⟨out, ho, h1, h2⟩ => ⟨out, ho, h1, h2 (by decide)⟩⟩

set_option maxRecDepth 100000 in
/-- C9: the loop over the devices appends, for each device in the order of the
list, the token `--device h:c:p` when the permission `p` is not empty and
`--device h:c` when it is empty, followed by one space; this text is in the
output; `(/dev/sda, /dev/xvda, rwm)` gives `--device /dev/sda:/dev/xvda:rwm`
and `(/dev/sda, /dev/xvda, "")` gives `--device /dev/sda:/dev/xvda`. -/
theorem C9_device_tokens (i : Inspector) :
    (∀ command, addDevices i command = command ++
      i.container.HostConfig.Devices.flatMap (fun d =>
        (if d.CgroupPermissions ≠ [] then
          lit "--device " ++ d.PathOnHost ++ lit ":" ++ d.PathInContainer ++ lit ":" ++
            d.CgroupPermissions
        else lit "--device " ++ d.PathOnHost ++ lit ":" ++ d.PathInContainer) ++ lit " ")) ∧
    (i.container.Name ≠ [] → ∃ out, GetRunlikeCommand i = some out ∧
      i.container.HostConfig.Devices.flatMap (fun d =>
        (if d.CgroupPermissions ≠ [] then
          lit "--device " ++ d.PathOnHost ++ lit ":" ++ d.PathInContainer ++ lit ":" ++
            d.CgroupPermissions
        else lit "--device " ++ d.PathOnHost ++ lit ":" ++ d.PathInContainer) ++ lit " ")
        <:+: out) ∧
    (∀ command, addDevice command ⟨lit "/dev/sda", lit "/dev/xvda", lit "rwm"⟩ =
      command ++ lit "--device /dev/sda:/dev/xvda:rwm" ++ lit " ") ∧
    (∀ command, addDevice command ⟨lit "/dev/sda", lit "/dev/xvda", lit ""⟩ =
      command ++ lit "--device /dev/sda:/dev/xvda" ++ lit " ") := by
  have hfun := funext addDevice_nil
  refine ⟨?_, ?_, ?_, ?_⟩
  · intro command
    rw [addDevices_eq, hfun]
  · intro h
    obtain ⟨pre, post, ho⟩ := output_segment i 4 h (by decide)
    have hseg : (segments i).getD 4 [] =
        i.container.HostConfig.Devices.flatMap (addDevice []) := by
      simp [segments, addDevices_eq]
    rw [hseg, hfun] at ho
    exact ⟨_, ho, ⟨pre, post, rfl⟩⟩
  · intro command
    rw [addDevice_append, List.append_assoc]
    congr 1
  · intro command
    rw [addDevice_append, List.append_assoc]
    congr 1

set_option maxRecDepth 100000 in
theorem C9_device_tokens_witness :
    deviceInspector.container.Name ≠ [] ∧
      ∃ out, GetRunlikeCommand deviceInspector = some out ∧
        lit "--device /dev/sda:/dev/xvda:rwm --device /dev/sda:/dev/xvda " <:+: out :=
  ⟨by decide, (C9_device_tokens deviceInspector).2.1 (by decide)⟩

/-- C10: the output is the text of the earlier blocks, then the token
`--memory <decimal m> ` exactly when `Memory = m` and `m > 0`, then the token
`--memory-reservation <decimal m> ` exactly when `MemoryReservation = m` and
`m > 0`, then the text of the later blocks, the text before and after being the
same for every value of the two fields; the digits printed for a positive `m`
are its decimal digits; and for `m <= 0` the output is that of the same
descriptor with the field set to 0. -/
theorem C10_memory_rule (i : Inspector) (m : Int) :
    (∀ command, addMemory i command = command ++ lit "--memory " ++ Sprintf_d m ++ lit " " ↔
      i.container.HostConfig.Memory = m ∧ m > 0) ∧
    (∀ command, addMemoryReservation i command =
        command ++ lit "--memory-reservation " ++ Sprintf_d m ++ lit " " ↔
      i.container.HostConfig.MemoryReservation = m ∧ m > 0) ∧
    (m > 0 → (decodeUint (Sprintf_d m) : Int) = m) ∧
    (m ≤ 0 → GetRunlikeCommand (setMemory i m) = GetRunlikeCommand (setMemory i 0)) ∧
    (m ≤ 0 → GetRunlikeCommand (setMemoryReservation i m) =
      GetRunlikeCommand (setMemoryReservation i 0)) ∧
    (i.container.Name ≠ [] → ∃ before after : Str,
      GetRunlikeCommand i =
        some (before ++ addMemory i [] ++ addMemoryReservation i [] ++ after) ∧
      ∀ M R : Int, GetRunlikeCommand (setMemoryReservation (setMemory i M) R) =
        some (before ++
          (if M > 0 then lit "--memory " ++ Sprintf_d M ++ lit " " else []) ++
          (if R > 0 then lit "--memory-reservation " ++ Sprintf_d R ++ lit " " else []) ++
          after)) := by
  refine ⟨?_, ?_, ?_, ?_, ?_, ?_⟩
  · intro command
    unfold addMemory
    split
    · rename_i hpos
      simp only [List.append_assoc, List.append_cancel_left_eq, List.append_cancel_right_eq]
      constructor
      · intro he
        have := Sprintf_d_injective_pos hpos he
        exact ⟨this, this ▸ hpos⟩
      · rintro ⟨he, _⟩
        rw [he]
    · rename_i hnp
      constructor
      · intro he
        have hl := congrArg List.length he
        have h1 : (lit "--memory ").length = 9 := by decide
        simp [h1] at hl
      · rintro ⟨he, hm⟩
        exact absurd (he ▸ hm) hnp
  · intro command
    unfold addMemoryReservation
    split
    · rename_i hpos
      simp only [List.append_assoc, List.append_cancel_left_eq, List.append_cancel_right_eq]
      constructor
      · intro he
        have := Sprintf_d_injective_pos hpos he
        exact ⟨this, this ▸ hpos⟩
      · rintro ⟨he, _⟩
        rw [he]
    · rename_i hnp
      constructor
      · intro he
        have hl := congrArg List.length he
        have h1 : (lit "--memory-reservation ").length = 21 := by decide
        simp [h1] at hl
      · rintro ⟨he, hm⟩
        exact absurd (he ▸ hm) hnp
  · intro hm
    cases m with
    | negSucc n => exact absurd hm (by simp [Int.negSucc_lt_zero])
    | ofNat n => simp [Sprintf_d, decodeUint_formatUint]
  · intro hm
    have h1 : ¬ m > 0 := by omega
    simp [GetRunlikeCommand, setMemory, addMemory, h1, addMacAddress, addLinks, addCpusetCpus,
      addCpusetMems, addDevices, addMemoryReservation, addPrivileged, addTty, addRm, addUser,
      addEnv, addPortBindings, addNetwork, addVolumes, addWorkingDir, addRestart, addDNS,
      addDNSSearch, addExtraHosts, addImage, addCmd]
  · intro hm
    have h1 : ¬ m > 0 := by omega
    simp [GetRunlikeCommand, setMemoryReservation, addMemory, h1, addMacAddress, addLinks,
      addCpusetCpus, addCpusetMems, addDevices, addMemoryReservation, addPrivileged, addTty,
      addRm, addUser, addEnv, addPortBindings, addNetwork, addVolumes, addWorkingDir,
      addRestart, addDNS, addDNSSearch, addExtraHosts, addImage, addCmd]
  · intro h
    have key : ∀ j : Inspector, j.container.Name = i.container.Name →
        (∀ c, addMacAddress j c = addMacAddress i c) → (∀ c, addLinks j c = addLinks i c) →
        (∀ c, addCpusetCpus j c = addCpusetCpus i c) →
        (∀ c, addCpusetMems j c = addCpusetMems i c) →
        (∀ c, addDevices j c = addDevices i c) →
        ((segments j).drop 7 = (segments i).drop 7) →
        GetRunlikeCommand j =
          some (addDevices i (addCpusetMems i (addCpusetCpus i (addLinks i (addMacAddress i
              (lit "docker run " ++ lit "--name " ++ i.container.Name.drop 1 ++ lit " "))))) ++
            addMemory j [] ++ addMemoryReservation j [] ++ ((segments i).drop 7).flatten) := by
      intro j hn h0 h1 h2 h3 h4 hrest
      unfold GetRunlikeCommand
      rw [sliceFrom1_of_ne_nil _ (hn ▸ h)]
      simp only [h0, h1, h2, h3, h4, hn]
      rw [addCmd_append, addImage_append, addExtraHosts_eq j (addDNSSearch _ _),
        addDNSSearch_eq j (addDNS _ _), addDNS_eq j (addRestart _ _), addRestart_append,
        addWorkingDir_append, addVolumes_eq j (addNetwork _ _), addNetwork_append,
        addPortBindings_eq j (addEnv _ _), addEnv_eq j (addUser _ _), addUser_append,
        addRm_append, addTty_append]
      unfold addDetach
      rw [addPrivileged_append, addMemoryReservation_append, addMemory_append, ← hrest]
      simp [segments, List.append_assoc, addEnv_eq, addPortBindings_eq, addVolumes_eq,
        addDNS_eq, addDNSSearch_eq, addExtraHosts_eq, addDetach]
    refine ⟨_, _, key i rfl (fun _ => rfl) (fun _ => rfl) (fun _ => rfl) (fun _ => rfl)
      (fun _ => rfl) rfl, ?_⟩
    intro M R
    have hk := key (setMemoryReservation (setMemory i M) R) rfl (fun _ => rfl) (fun _ => rfl)
      (fun _ => rfl) (fun _ => rfl) (fun _ => rfl) rfl
    rw [hk]
    simp [addMemory, addMemoryReservation, setMemory, setMemoryReservation]

set_option maxRecDepth 100000 in
theorem C10_memory_rule_witness :
    ((5 : Int) > 0 ∧ (decodeUint (Sprintf_d 5) : Int) = 5) ∧
    ((-5 : Int) ≤ 0 ∧ GetRunlikeCommand (setMemory scenarioInspector (-5)) =
      GetRunlikeCommand (setMemory scenarioInspector 0)) ∧
    ((-5 : Int) ≤ 0 ∧ GetRunlikeCommand (setMemoryReservation scenarioInspector (-5)) =
      GetRunlikeCommand (setMemoryReservation scenarioInspector 0)) ∧
    (scenarioInspector.container.Name ≠ [] ∧ ∃ before after : Str,
      GetRunlikeCommand scenarioInspector =
        some (before ++ lit "--memory 536870912 " ++ [] ++ after) ∧
      GetRunlikeCommand (setMemoryReservation (setMemory scenarioInspector 0) 64) =
        some (before ++ [] ++ lit "--memory-reservation 64 " ++ after)) ∧
    GetRunlikeCommand (setMemoryReservation (setMemory scenarioInspector 5) 64) =
      some (lit
        "docker run --name app --memory 5 --memory-reservation 64 -d -t -e \"X=1\" nginx:latest ") ∧
    GetRunlikeCommand (setMemoryReservation (setMemory scenarioInspector (-5)) 0) =
      some (lit "docker run --name app -d -t -e \"X=1\" nginx:latest ") :=
  ⟨⟨by decide, (C10_memory_rule scenarioInspector 5).2.2.1 (by decide)⟩,
   ⟨by decide, (C10_memory_rule scenarioInspector (-5)).2.2.2.1 (by decide)⟩,
   ⟨by decide, (C10_memory_rule scenarioInspector (-5)).2.2.2.2.1 (by decide)⟩,
   ⟨by decide,
    match (C10_memory_rule scenarioInspector 0).2.2.2.2.2 (by decide) with
    | ⟨before, after, h1, h2⟩ => ⟨before, after, h1, h2 0 64⟩⟩,
   by decide, by decide⟩

/-! ## Further lemmas on the output -/

theorem portTokens_eq_joinTokens (entry : Str × List PortBinding) :
    portTokens entry = joinTokens (entry.2.map (fun binding =>
      lit "-p " ++ binding.HostIP ++ lit ":" ++ binding.HostPort ++ lit ":" ++ entry.1)) := by
  simp [portTokens, joinTokens, List.flatMap_map, List.append_assoc]

theorem flatMap_joinTokens {α : Type} (xs : List α) (f : α → List Str) :
    xs.flatMap (fun x => joinTokens (f x)) = joinTokens (xs.flatMap f) := by
  induction xs with
  | nil => rfl
  | cons x xs ih => simp [List.flatMap_cons, joinTokens_append, ih]

theorem length_flatMap_map {α β γ : Type} (xs : List α) (g : α → List β) (f : α → β → γ) :
    (xs.flatMap (fun x => (g x).map (f x))).length = (xs.map (fun x => (g x).length)).sum := by
  induction xs with
  | nil => rfl
  | cons x xs ih => simp [List.flatMap_cons, ih]

theorem output_tail (i : Inspector) (h : i.container.Name ≠ []) :
    GetRunlikeCommand i =
      some ((lit "docker run " ++ (lit "--name " ++ i.container.Name.drop 1 ++ lit " ") ++
        ((segments i).take 21).flatten) ++ i.container.Config.Image ++ lit " " ++
        addCmd i []) := by
  rw [GetRunlikeCommand_eq_segments i h]
  simp [segments, addImage, List.append_assoc]

theorem addCmd_nil_of_nil (i : Inspector) (h : i.container.Config.Cmd = []) :
    addCmd i [] = [] := by
  simp [addCmd, h]

theorem addCmd_nil_of_ne_nil (i : Inspector) (h : i.container.Config.Cmd ≠ []) :
    addCmd i [] = stringsJoin i.container.Config.Cmd (lit " ") ++ lit " " := by
  have : i.container.Config.Cmd.length > 0 := List.length_pos.mpr h
  simp [addCmd, this]

theorem getLast_of_space_suffix (s : Str) (h : lit " " <:+ s) : s.getLast? = some 32 := by
  obtain ⟨t, ht⟩ := h
  have hl : lit " " = [32] := by decide
  rw [← ht, hl]
  simp

theorem GetRunlikeCommand_setMounts (i : Inspector) (m1 m2 : List MountPoint)
    (hm : m1.map (fun m => (m.Source, m.Destination)) =
      m2.map (fun m => (m.Source, m.Destination))) :
    GetRunlikeCommand (setMounts i m1) = GetRunlikeCommand (setMounts i m2) := by
  have hv : ∀ c, addVolumes (setMounts i m1) c = addVolumes (setMounts i m2) c := by
    intro c
    rw [addVolumes_eq, addVolumes_eq]
    congr 1
    have e : ∀ ms : List MountPoint,
        ms.flatMap (fun mount => lit "-v " ++ mount.Source ++ lit ":" ++ mount.Destination ++
          lit " ") =
        (ms.map (fun m => (m.Source, m.Destination))).flatMap
          (fun p => lit "-v " ++ p.1 ++ lit ":" ++ p.2 ++ lit " ") := by
      intro ms
      rw [List.flatMap_map]
    show (setMounts i m1).container.Mounts.flatMap _ = (setMounts i m2).container.Mounts.flatMap _
    simp only [setMounts]
    rw [e m1, e m2, hm]
  simp only [GetRunlikeCommand, hv]
  rfl

theorem output_ports (i : Inspector) (pb : List (Str × List PortBinding))
    (h : i.container.Name ≠ []) :
    GetRunlikeCommand (setPortBindings i pb) =
      some ((lit "docker run " ++ (lit "--name " ++ i.container.Name.drop 1 ++ lit " ") ++
        ((segments i).take 13).flatten) ++ pb.flatMap portTokens ++
        ((segments i).drop 14).flatten) := by
  have hn : (setPortBindings i pb).container.Name ≠ [] := h
  rw [GetRunlikeCommand_eq_segments _ hn]
  simp [segments, setPortBindings, addPortBindings_eq, List.append_assoc, addMacAddress,
    addLinks, addCpusetCpus, addCpusetMems, addDevices, addMemory, addMemoryReservation,
    addPrivileged, addTty, addRm, addUser, addEnv, addNetwork, addVolumes, addWorkingDir,
    addRestart, addDNS, addDNSSearch, addExtraHosts, addImage, addCmd]

theorem flatMap_portTokens_filter (pb : List (Str × List PortBinding)) :
    pb.flatMap portTokens = (pb.filter (fun e => decide (e.2 ≠ []))).flatMap portTokens := by
  induction pb with
  | nil => rfl
  | cons e pb ih =>
    by_cases he : e.2 = []
    · have : portTokens e = [] := by simp [portTokens, he]
      simp [List.flatMap_cons, List.filter_cons, he, this, ih]
    · simp [List.flatMap_cons, List.filter_cons, he, ih]

theorem perm_eq_of_length_le_one {α : Type} {l1 l2 : List α} (hp : l1.Perm l2)
    (hl : l1.length ≤ 1) : l1 = l2 := by
  cases l1 with
  | nil => exact (List.Perm.nil_eq hp)
  | cons a t =>
    cases t with
    | nil => exact (List.perm_singleton.mp hp.symm).symm
    | cons b t => simp at hl

theorem endsSp_append {a b : Str} (ha : a = [] ∨ lit " " <:+ a) (hb : b = [] ∨ lit " " <:+ b) :
    a ++ b = [] ∨ lit " " <:+ a ++ b := by
  rcases hb with hb | hb
  · subst hb
    simpa using ha
  · exact Or.inr (hb.trans (List.suffix_append a b))

theorem endsSp_flatMap {α : Type} (xs : List α) (f : α → Str)
    (hf : ∀ x, f x = [] ∨ lit " " <:+ f x) :
    xs.flatMap f = [] ∨ lit " " <:+ xs.flatMap f := by
  induction xs with
  | nil => exact Or.inl rfl
  | cons x xs ih =>
    rw [List.flatMap_cons]
    exact endsSp_append (hf x) ih

theorem endsSp_flatten (L : List Str) (h : ∀ s ∈ L, s = [] ∨ lit " " <:+ s) :
    L.flatten = [] ∨ lit " " <:+ L.flatten := by
  induction L with
  | nil => exact Or.inl rfl
  | cons a L ih =>
    rw [List.flatten_cons]
    exact endsSp_append (h a (by simp)) (ih (fun s hs => h s (by simp [hs])))

theorem segments_after_detach_endsSp (i : Inspector) :
    ∀ s ∈ ((segments i).drop 9).take 12, s = [] ∨ lit " " <:+ s := by
  have hsp : ∀ a : Str, a ++ lit " " = [] ∨ lit " " <:+ a ++ lit " " :=
    fun a => Or.inr (List.suffix_append _ _)
  have hl : ∀ a L : Str, lit " " <:+ L → a ++ L = [] ∨ lit " " <:+ a ++ L :=
    fun a L h => Or.inr (h.trans (List.suffix_append a L))
  have hc : ∀ (c : Prop) [Decidable c] (t : Str), (t = [] ∨ lit " " <:+ t) →
      (if c then t else []) = [] ∨ lit " " <:+ (if c then t else []) := by
    intro c _ t ht
    split
    · exact ht
    · exact Or.inl rfl
  intro s hs
  simp only [segments, List.drop_succ_cons, List.drop_zero, List.take_succ_cons, List.take_zero,
    List.mem_cons, List.mem_nil_iff, or_false] at hs
  rcases hs with h | h | h | h | h | h | h | h | h | h | h | h <;> subst h
  · exact hc _ _ (hl _ _ (by decide))
  · exact hc _ _ (hl _ _ (by decide))
  · exact hc _ _ (hsp _)
  · rw [addEnv_eq, List.nil_append]
    exact endsSp_flatMap _ _ (fun x => hl _ _ (by decide))
  · rw [addPortBindings_eq, List.nil_append]
    exact endsSp_flatMap _ _ (fun e => endsSp_flatMap _ _ (fun b => hsp _))
  · exact hc _ _ (hsp _)
  · rw [addVolumes_eq, List.nil_append]
    exact endsSp_flatMap _ _ (fun x => hsp _)
  · exact hc _ _ (hsp _)
  · exact hc _ _ (hsp _)
  · rw [addDNS_eq, List.nil_append]
    exact endsSp_flatMap _ _ (fun x => hsp _)
  · rw [addDNSSearch_eq, List.nil_append]
    exact endsSp_flatMap _ _ (fun x => hsp _)
  · rw [addExtraHosts_eq, List.nil_append]
    exact endsSp_flatMap _ _ (fun x => hsp _)

theorem before_image_ends_with_space (i : Inspector) :
    lit " " <:+ lit "docker run " ++ (lit "--name " ++ i.container.Name.drop 1 ++ lit " ") ++
      ((segments i).take 21).flatten := by
  have hsplit : ((segments i).take 21).flatten =
      ((segments i).take 8).flatten ++ lit "-d " ++ (((segments i).drop 9).take 12).flatten := by
    simp [segments, addDetach, List.append_assoc]
  rw [hsplit]
  rcases endsSp_flatten _ (segments_after_detach_endsSp i) with h | h
  · rw [h, List.append_nil, ← List.append_assoc]
    exact (show lit " " <:+ lit "-d " by decide).trans (List.suffix_append _ _)
  · rw [← List.append_assoc]
    exact h.trans (List.suffix_append _ _)

theorem no_double_space_aux (X : Str) (hX : ¬ [32, 32] <:+: X) (hh : X.head? ≠ some 32) :
    ∀ t : Str, (32 : UInt8) ∉ t → ¬ [32, 32] <:+: t ++ 32 :: X := by
  intro t
  induction t with
  | nil =>
    intro _ h
    rw [List.nil_append, List.infix_cons_iff] at h
    rcases h with h | h
    · have h1 := (List.cons_prefix_cons.mp h).2
      cases X with
      | nil => simp at h1
      | cons x X =>
        have := (List.cons_prefix_cons.mp h1).1
        exact hh (by simp [this])
    · exact hX h
  | cons c t ih =>
    intro hc h
    rw [List.cons_append, List.infix_cons_iff] at h
    rcases h with h | h
    · have := (List.cons_prefix_cons.mp h).1
      exact hc (by simp [this])
    · exact ih (fun hm => hc (List.mem_cons_of_mem _ hm)) h

theorem no_double_space_joinTokens (tokens : List Str)
    (h : ∀ t ∈ tokens, t ≠ [] ∧ (32 : UInt8) ∉ t) :
    ¬ [32, 32] <:+: joinTokens tokens ∧ (joinTokens tokens).head? ≠ some 32 := by
  have hsp : lit " " = [32] := by decide
  induction tokens with
  | nil => simp [joinTokens]
  | cons t ts ih =>
    have ih1 := ih (fun x hx => h x (List.mem_cons_of_mem _ hx))
    have ht := h t (by simp)
    have e : joinTokens (t :: ts) = t ++ 32 :: joinTokens ts := by
      simp [joinTokens, hsp]
    rw [e]
    refine ⟨no_double_space_aux _ ih1.1 ih1.2 t ht.2, ?_⟩
    cases t with
    | nil => exact absurd rfl ht.1
    | cons c t =>
      intro hc
      have : c = 32 := by simpa using hc
      exact ht.2 (by simp [this])

set_option maxRecDepth 100000 in
theorem main_scenario :
    main scenarioDocker (some (lit "app")) =
      { stdout := lit
          "docker run --name app --memory 536870912 -d -t -e \"X=1\" nginx:latest \n",
        stderr := [], exitCode := 0, inspected := [lit "app"] } := by
  decide

/-! ## The claims on ports, tail, fetcher and names -/

/-- C11: the port-binding block appends exactly one token
`-p <hostIP>:<hostPort>:<containerPort>` followed by one space for each
(container port, host binding) pair of the table and nothing else, the ports in
visit order and the bindings under one port in list order; the number of these
tokens is the sum over the ports of the numbers of their bindings; and this
text is a contiguous part of the output. -/
theorem C11_port_binding_tokens (i : Inspector) :
    (∀ command, addPortBindings i command = command ++
      joinTokens (i.container.HostConfig.PortBindings.flatMap (fun entry =>
        entry.2.map (fun binding =>
          lit "-p " ++ binding.HostIP ++ lit ":" ++ binding.HostPort ++ lit ":" ++ entry.1)))) ∧
    (i.container.HostConfig.PortBindings.flatMap (fun entry =>
        entry.2.map (fun binding =>
          lit "-p " ++ binding.HostIP ++ lit ":" ++ binding.HostPort ++ lit ":" ++
            entry.1))).length =
      (i.container.HostConfig.PortBindings.map (fun entry => entry.2.length)).sum ∧
    (i.container.Name ≠ [] → ∃ out, GetRunlikeCommand i = some out ∧
      joinTokens (i.container.HostConfig.PortBindings.flatMap (fun entry =>
        entry.2.map (fun binding =>
          lit "-p " ++ binding.HostIP ++ lit ":" ++ binding.HostPort ++ lit ":" ++ entry.1)))
        <:+: out) := by
  have hseg : i.container.HostConfig.PortBindings.flatMap portTokens =
      joinTokens (i.container.HostConfig.PortBindings.flatMap (fun entry =>
        entry.2.map (fun binding =>
          lit "-p " ++ binding.HostIP ++ lit ":" ++ binding.HostPort ++ lit ":" ++
            entry.1))) := by
    rw [← flatMap_joinTokens]
    congr 1
    funext entry
    exact portTokens_eq_joinTokens entry
  refine ⟨?_, ?_, ?_⟩
  · intro command
    rw [addPortBindings_eq, hseg]
  · exact length_flatMap_map i.container.HostConfig.PortBindings
      (fun entry : Str × List PortBinding => entry.2)
      (fun entry binding =>
        lit "-p " ++ binding.HostIP ++ lit ":" ++ binding.HostPort ++ lit ":" ++ entry.1)
  · intro h
    obtain ⟨pre, post, ho⟩ := output_segment i 13 h (by decide)
    have h13 : (segments i).getD 13 [] =
        i.container.HostConfig.PortBindings.flatMap portTokens := by
      simp [segments, addPortBindings_eq]
    rw [h13, hseg] at ho
    exact ⟨_, ho, ⟨pre, post, rfl⟩⟩

set_option maxRecDepth 100000 in
theorem C11_port_binding_tokens_witness :
    (setPortBindings plainInspector portsFirstOrder).container.Name ≠ [] ∧
      ∃ out, GetRunlikeCommand (setPortBindings plainInspector portsFirstOrder) = some out ∧
        lit "-p 0.0.0.0:8080:80/tcp -p 0.0.0.0:8443:443/tcp " <:+: out :=
  ⟨by decide, (C11_port_binding_tokens (setPortBindings plainInspector portsFirstOrder)).2.2
    (by decide)⟩

/-- C12: for every descriptor with a non-empty name the output ends with the
image reference and one space when the command list is empty, and with the
image reference, one space, the command elements joined by single spaces and
one more space when it is not; in both cases the last byte of the output is a
space and the image comes right before the text of the command. -/
theorem C12_output_tail (i : Inspector) (h : i.container.Name ≠ []) :
    ∃ out, GetRunlikeCommand i = some out ∧
      (i.container.Config.Cmd = [] → i.container.Config.Image ++ lit " " <:+ out) ∧
      (i.container.Config.Cmd ≠ [] →
        i.container.Config.Image ++ lit " " ++
          stringsJoin i.container.Config.Cmd (lit " ") ++ lit " " <:+ out) ∧
      out.getLast? = some 32 ∧
      (∃ before, out = before ++ i.container.Config.Image ++ lit " " ++ addCmd i []) := by
  refine ⟨_, output_tail i h, ?_, ?_, ?_, ⟨_, rfl⟩⟩
  · intro hc
    rw [addCmd_nil_of_nil i hc, List.append_nil, List.append_assoc]
    exact List.suffix_append _ _
  · intro hc
    rw [addCmd_nil_of_ne_nil i hc]
    refine ⟨lit "docker run " ++ (lit "--name " ++ i.container.Name.drop 1 ++ lit " ") ++
      ((segments i).take 21).flatten, ?_⟩
    simp [List.append_assoc]
  · apply getLast_of_space_suffix
    by_cases hc : i.container.Config.Cmd = []
    · rw [addCmd_nil_of_nil i hc, List.append_nil]
      exact List.suffix_append _ _
    · rw [addCmd_nil_of_ne_nil i hc, ← List.append_assoc]
      exact List.suffix_append _ _

set_option maxRecDepth 100000 in
theorem C12_output_tail_witness :
    (setCmd plainInspector [lit "nginx", lit "-g", lit "daemon off;"]).container.Name ≠ [] ∧
      ∃ out, GetRunlikeCommand (setCmd plainInspector [lit "nginx", lit "-g", lit "daemon off;"])
          = some out ∧
        lit "nginx:latest nginx -g daemon off; " <:+ out ∧ out.getLast? = some 32 :=
  ⟨by decide,
    match C12_output_tail (setCmd plainInspector [lit "nginx", lit "-g", lit "daemon off;"])
      (by decide) with
    | ⟨out, ho, _, h2, h3, _⟩ => ⟨out, ho, h2 (by decide), h3⟩⟩

set_option maxRecDepth 100000 in
/-- C13, the claim fails: the table with the container ports `80/tcp` and
`443/tcp` visited in one order and in the other gives two different strings. -/
theorem C13_visit_order_matters :
    ¬ ∀ (i : Inspector) (pb1 pb2 : List (Str × List PortBinding)),
      (pb1.map Prod.fst).Nodup → pb1.Perm pb2 →
      GetRunlikeCommand (setPortBindings i pb1) = GetRunlikeCommand (setPortBindings i pb2) := by
  intro h
  have h1 := h plainInspector portsFirstOrder portsSecondOrder (by decide) (by decide)
  have h2 : GetRunlikeCommand (setPortBindings plainInspector portsFirstOrder) = some (lit
      "docker run --name app -d -p 0.0.0.0:8080:80/tcp -p 0.0.0.0:8443:443/tcp nginx:latest ") :=
    by decide
  have h3 : GetRunlikeCommand (setPortBindings plainInspector portsSecondOrder) = some (lit
      "docker run --name app -d -p 0.0.0.0:8443:443/tcp -p 0.0.0.0:8080:80/tcp nginx:latest ") :=
    by decide
  rw [h2, h3] at h1
  exact absurd h1 (by decide)

/-- C13, amended: for a given visit order of the port-binding table the result
is a function of the descriptor; two visit orders of the same table give
outputs that are equal outside the port-binding text, the groups of `-p`
tokens of the container ports being the same up to their order; and the two
outputs are equal when at most one container port has bindings. -/
theorem C13_visit_order (i : Inspector) (pb1 pb2 : List (Str × List PortBinding))
    (hname : i.container.Name ≠ []) (hperm : pb1.Perm pb2) :
    ∃ before after,
      GetRunlikeCommand (setPortBindings i pb1) =
        some (before ++ pb1.flatMap portTokens ++ after) ∧
      GetRunlikeCommand (setPortBindings i pb2) =
        some (before ++ pb2.flatMap portTokens ++ after) ∧
      (pb1.map portTokens).Perm (pb2.map portTokens) ∧
      ((pb1.filter (fun e => decide (e.2 ≠ []))).length ≤ 1 →
        GetRunlikeCommand (setPortBindings i pb1) =
          GetRunlikeCommand (setPortBindings i pb2)) := by
  refine ⟨_, _, output_ports i pb1 hname, output_ports i pb2 hname, hperm.map _, ?_⟩
  intro hl
  rw [output_ports i pb1 hname, output_ports i pb2 hname, flatMap_portTokens_filter pb1,
    flatMap_portTokens_filter pb2,
    perm_eq_of_length_le_one (hperm.filter (fun e => decide (e.2 ≠ []))) hl]

set_option maxRecDepth 100000 in
theorem C13_visit_order_witness :
    (plainInspector.container.Name ≠ [] ∧ portsFirstOrder.Perm portsSecondOrder ∧
      ∃ before after,
        GetRunlikeCommand (setPortBindings plainInspector portsFirstOrder) =
          some (before ++ portsFirstOrder.flatMap portTokens ++ after) ∧
        GetRunlikeCommand (setPortBindings plainInspector portsSecondOrder) =
          some (before ++ portsSecondOrder.flatMap portTokens ++ after) ∧
        (portsFirstOrder.map portTokens).Perm (portsSecondOrder.map portTokens)) ∧
    (([(lit "80/tcp", [(⟨lit "0.0.0.0", lit "8080"⟩ : PortBinding)]), (lit "443/tcp", [])].filter
        (fun e => decide (e.2 ≠ []))).length ≤ 1 ∧
      GetRunlikeCommand (setPortBindings plainInspector
          [(lit "80/tcp", [⟨lit "0.0.0.0", lit "8080"⟩]), (lit "443/tcp", [])]) =
        GetRunlikeCommand (setPortBindings plainInspector
          [(lit "443/tcp", []), (lit "80/tcp", [⟨lit "0.0.0.0", lit "8080"⟩])])) :=
  ⟨⟨by decide, by decide,
    match C13_visit_order plainInspector portsFirstOrder portsSecondOrder (by decide)
      (by decide) with
    | ⟨before, after, h1, h2, h3, _⟩ => ⟨before, after, h1, h2, h3⟩⟩,
   ⟨by decide,
    match C13_visit_order plainInspector
      [(lit "80/tcp", [⟨lit "0.0.0.0", lit "8080"⟩]), (lit "443/tcp", [])]
      [(lit "443/tcp", []), (lit "80/tcp", [⟨lit "0.0.0.0", lit "8080"⟩])] (by decide)
      (by decide) with
    | ⟨_, _, _, _, _, h4⟩ => h4 (by decide)⟩⟩

/-- C14: for every non-empty identifier, when building the client fails or the
inspect query fails, `NewInspector` returns that error and no inspector, and
`main` ends with a non-zero exit status having written nothing to standard
output. -/
theorem C14_fetch_failure (docker : Docker) (containerID : Str) (err : Err)
    (hid : containerID ≠ [])
    (hfail : docker.NewClientWithOpts = Except.error err ∨
      ∃ cli, docker.NewClientWithOpts = Except.ok cli ∧
        docker.ContainerInspect cli containerID = Except.error err) :
    NewInspector docker containerID = Except.error err ∧
      (main docker (some containerID)).exitCode ≠ 0 ∧
      (main docker (some containerID)).stdout = [] := by
  have hN : NewInspector docker containerID = Except.error err := by
    unfold NewInspector
    rcases hfail with h | ⟨cli, h1, h2⟩
    · rw [h]
    · rw [h1]
      simp only
      rw [h2]
  refine ⟨hN, ?_, ?_⟩
  · simp [main, flagString, hid, hN]
  · simp [main, flagString, hid, hN]

set_option maxRecDepth 100000 in
theorem C14_fetch_failure_witness :
    (lit "nosuch" ≠ [] ∧ unreachableDocker.NewClientWithOpts =
        Except.error (lit "unable to parse docker host") ∧
      NewInspector unreachableDocker (lit "nosuch") =
        Except.error (lit "unable to parse docker host") ∧
      (main unreachableDocker (some (lit "nosuch"))).exitCode ≠ 0 ∧
      (main unreachableDocker (some (lit "nosuch"))).stdout = []) ∧
    (emptyDocker.ContainerInspect ⟨lit "unix:///var/run/docker.sock"⟩ (lit "nosuch") =
        Except.error (lit "No such container") ∧
      NewInspector emptyDocker (lit "nosuch") = Except.error (lit "No such container") ∧
      (main emptyDocker (some (lit "nosuch"))).exitCode ≠ 0 ∧
      (main emptyDocker (some (lit "nosuch"))).stdout = []) :=
  ⟨⟨by decide, rfl,
    C14_fetch_failure unreachableDocker (lit "nosuch") (lit "unable to parse docker host")
      (by decide) (Or.inl rfl)⟩,
   ⟨rfl,
    C14_fetch_failure emptyDocker (lit "nosuch") (lit "No such container")
      (by decide) (Or.inr ⟨⟨lit "unix:///var/run/docker.sock"⟩, rfl, rfl⟩)⟩⟩

/-- C15: when the flag `-c` is omitted or given the empty string, `main`
writes the usage text of the flag `-c` (its name, its type and its description
`name or id of the container`), ends with exit status 0, does not call
`NewInspector` and writes nothing to standard output. -/
theorem C15_empty_identifier (docker : Docker) :
    main docker none =
      { stdout := [], stderr := lit "  -c string\n    \tname or id of the container\n",
        exitCode := 0, inspected := [] } ∧
    main docker (some (lit "")) =
      { stdout := [], stderr := lit "  -c string\n    \tname or id of the container\n",
        exitCode := 0, inspected := [] } := by
  have h : lit "" = [] := by decide
  constructor
  · simp [main, flagString, h, usageText]
  · simp [main, flagString, h, usageText]

set_option maxRecDepth 100000 in
/-- C16: the two descriptors that differ only in their command list, `a b` as
one element against the two elements `a` and `b`, are given the same string:
the elements are joined with single spaces and appended without quoting. -/
theorem C16_spaces_in_arguments :
    (∀ i : Inspector, GetRunlikeCommand (setCmd i [lit "a b"]) =
      GetRunlikeCommand (setCmd i [lit "a", lit "b"])) ∧
    setCmd plainInspector [lit "a b"] ≠ setCmd plainInspector [lit "a", lit "b"] ∧
    GetRunlikeCommand (setCmd plainInspector [lit "a b"]) =
      some (lit "docker run --name app -d nginx:latest a b ") ∧
    GetRunlikeCommand (setCmd plainInspector [lit "a", lit "b"]) =
      some (lit "docker run --name app -d nginx:latest a b ") := by
  refine ⟨?_, by decide, by decide, by decide⟩
  intro i
  have hc : ∀ c, addCmd (setCmd i [lit "a b"]) c = addCmd (setCmd i [lit "a", lit "b"]) c := by
    intro c
    have e : stringsJoin [lit "a b"] (lit " ") = stringsJoin [lit "a", lit "b"] (lit " ") := by
      decide
    simp [addCmd, setCmd, e]
  simp only [GetRunlikeCommand, hc]
  rfl

/-- C17: for every descriptor with a non-empty name the output contains, as one
contiguous text, `--dns s ` for each DNS server in list order, then
`--dns-search d ` for each search domain in list order, then `--add-host h `
for each extra host in list order, immediately followed by the image
reference. -/
theorem C17_dns_group (i : Inspector) (h : i.container.Name ≠ []) :
    ∃ before after, GetRunlikeCommand i = some (before ++
      (i.container.HostConfig.DNS.flatMap (fun s => lit "--dns " ++ s ++ lit " ") ++
       i.container.HostConfig.DNSSearch.flatMap (fun d => lit "--dns-search " ++ d ++ lit " ") ++
       i.container.HostConfig.ExtraHosts.flatMap (fun x => lit "--add-host " ++ x ++ lit " ")) ++
      i.container.Config.Image ++ after) := by
  refine ⟨lit "docker run " ++ (lit "--name " ++ i.container.Name.drop 1 ++ lit " ") ++
      ((segments i).take 18).flatten, lit " " ++ addCmd i [], ?_⟩
  rw [GetRunlikeCommand_eq_segments i h]
  simp [segments, addImage, addDNS_eq, addDNSSearch_eq, addExtraHosts_eq, List.append_assoc]

set_option maxRecDepth 100000 in
theorem C17_dns_group_witness :
    dnsInspector.container.Name ≠ [] ∧
      ∃ before after, GetRunlikeCommand dnsInspector = some (before ++
        lit "--dns 8.8.8.8 --dns 1.1.1.1 --dns-search example.com --add-host db:10.0.0.2 " ++
        lit "alpine" ++ after) :=
  ⟨by decide, C17_dns_group dnsInspector (by decide)⟩

/-- C18: the mount block appends exactly `-v source:destination ` for each
mount in list order; in the output this text stands right after the text of
the network-mode block and right before the text of the working-directory
block; and the output does not depend on any attribute of a mount other than
its source and its destination, so no read-only suffix, volume name or driver
option is ever added. -/
theorem C18_mounts (i : Inspector) :
    (∀ command, addVolumes i command = command ++
      i.container.Mounts.flatMap (fun m => lit "-v " ++ m.Source ++ lit ":" ++ m.Destination ++
        lit " ")) ∧
    (i.container.Name ≠ [] → ∃ before after, GetRunlikeCommand i = some (before ++
      addNetwork i [] ++
      i.container.Mounts.flatMap (fun m => lit "-v " ++ m.Source ++ lit ":" ++ m.Destination ++
        lit " ") ++
      addWorkingDir i [] ++ after)) ∧
    (∀ m1 m2 : List MountPoint,
      m1.map (fun m => (m.Source, m.Destination)) = m2.map (fun m => (m.Source, m.Destination)) →
      GetRunlikeCommand (setMounts i m1) = GetRunlikeCommand (setMounts i m2)) := by
  refine ⟨fun command => addVolumes_eq i command, ?_, GetRunlikeCommand_setMounts i⟩
  intro h
  refine ⟨lit "docker run " ++ (lit "--name " ++ i.container.Name.drop 1 ++ lit " ") ++
      ((segments i).take 14).flatten, ((segments i).drop 17).flatten, ?_⟩
  rw [GetRunlikeCommand_eq_segments i h]
  simp [segments, addVolumes_eq, List.append_assoc]

set_option maxRecDepth 100000 in
theorem C18_mounts_witness :
    ((setMounts scalarInspector sampleMounts).container.Name ≠ [] ∧
      ∃ before after, GetRunlikeCommand (setMounts scalarInspector sampleMounts) =
        some (before ++ lit "--network bridge " ++
          lit "-v /var/lib/docker/volumes/data/_data:/data -v /srv:/srv " ++
          lit "-w /srv " ++ after)) ∧
    (sampleMounts.map (fun m => (m.Source, m.Destination)) =
        (sampleMounts.map (fun m => { m with RW := true, Mode := lit "", Name := lit "" })).map
          (fun m => (m.Source, m.Destination)) ∧
      GetRunlikeCommand (setMounts scalarInspector sampleMounts) =
        GetRunlikeCommand (setMounts scalarInspector
          (sampleMounts.map (fun m => { m with RW := true, Mode := lit "", Name := lit "" })))) :=
  ⟨⟨by decide, (C18_mounts (setMounts scalarInspector sampleMounts)).2.1 (by decide)⟩,
   ⟨by decide, (C18_mounts scalarInspector).2.2 _ _ (by decide)⟩⟩

/-- C19: for every descriptor whose stored name is not empty the emitted name
is the stored name without its first byte, whatever that byte is: the output
begins with `docker run --name `, the stored name less its first byte, and a
space; the stored name `web1` gives `--name eb1` and the stored name `//x`
gives `--name /x`. -/
theorem C19_first_byte_dropped (i : Inspector) (c : UInt8) (n : Str)
    (h : i.container.Name = c :: n) :
    ∃ rest, GetRunlikeCommand i = some (lit "docker run --name " ++ n ++ lit " " ++ rest) ∧
      (i.container.Name = lit "web1" → n = lit "eb1") ∧
      (i.container.Name = lit "//x" → n = lit "/x") := by
  have hne : i.container.Name ≠ [] := by rw [h]; simp
  have hdrop : i.container.Name.drop 1 = n := by rw [h]; rfl
  have e : lit "docker run --name " = lit "docker run " ++ lit "--name " := by decide
  refine ⟨(segments i).flatten, ?_, ?_, ?_⟩
  · rw [GetRunlikeCommand_eq_segments i hne, hdrop, e]
    simp [List.append_assoc]
  · intro hw
    have h1 : lit "web1" = 119 :: lit "eb1" := by decide
    rw [hw, h1] at h
    exact (List.cons.inj h).2.symm
  · intro hw
    have h1 : lit "//x" = 47 :: lit "/x" := by decide
    rw [hw, h1] at h
    exact (List.cons.inj h).2.symm

set_option maxRecDepth 100000 in
theorem C19_first_byte_dropped_witness :
    (web1Inspector.container.Name = 119 :: lit "eb1" ∧
      ∃ rest, GetRunlikeCommand web1Inspector =
        some (lit "docker run --name " ++ lit "eb1" ++ lit " " ++ rest)) ∧
    (doubleSlashInspector.container.Name = 47 :: lit "/x" ∧
      ∃ rest, GetRunlikeCommand doubleSlashInspector =
        some (lit "docker run --name " ++ lit "/x" ++ lit " " ++ rest)) :=
  ⟨⟨by decide,
    match C19_first_byte_dropped web1Inspector 119 (lit "eb1") (by decide) with
    | ⟨rest, ho, _, _⟩ => ⟨rest, ho⟩⟩,
   ⟨by decide,
    match C19_first_byte_dropped doubleSlashInspector 47 (lit "/x") (by decide) with
    | ⟨rest, ho, _, _⟩ => ⟨rest, ho⟩⟩⟩

set_option maxRecDepth 100000 in
/-- C20, the claim fails: with an empty image reference and the command `x`
the output is `docker run --name app -d  x `, which does not end with two
spaces. -/
theorem C20_spaces_before_command :
    ¬ ∀ (i : Inspector) (out : Str), GetRunlikeCommand i = some out →
      i.container.Config.Image = [] → lit "  " <:+ out := by
  intro h
  have h1 := h (setCmd bareInspector [lit "x"]) (lit "docker run --name app -d  x ")
    (by decide) (by decide)
  exact absurd h1 (by decide)

set_option maxRecDepth 100000 in
/-- C20, amended: with an empty image reference the output contains two
consecutive spaces, right before the text of the command, hence at its end
when the command list is empty; with the command list made of the single empty
string the output ends with two spaces; the name `/app` with every other field
empty gives `docker run --name app -d  `; and an output that contains two
consecutive spaces is not a sequence of non-empty tokens without spaces, each
followed by exactly one space. -/
theorem C20_empty_values (i : Inspector) (h : i.container.Name ≠ []) :
    ∃ out, GetRunlikeCommand i = some out ∧
      (i.container.Config.Image = [] → lit "  " <:+: out) ∧
      (i.container.Config.Image = [] → i.container.Config.Cmd = [] → lit "  " <:+ out) ∧
      (i.container.Config.Cmd = [lit ""] → lit "  " <:+ out) ∧
      (i = bareInspector → out = lit "docker run --name app -d  ") ∧
      (lit "  " <:+: out →
        ¬ ∃ tokens : List Str, (∀ t ∈ tokens, t ≠ [] ∧ (32 : UInt8) ∉ t) ∧
          out = joinTokens tokens) ∧
      (i.container.Config.Image = [] → ∃ before, out = before ++ lit "  " ++ addCmd i []) := by
  have hsp : lit " " = [32] := by decide
  have h2 : lit "  " = lit " " ++ lit " " := by decide
  obtain ⟨P, hP⟩ := before_image_ends_with_space i
  refine ⟨_, output_tail i h, ?_, ?_, ?_, ?_, ?_, ?_⟩
  · intro hi
    rw [← hP, hi, List.append_nil, h2]
    exact ⟨P, addCmd i [], by simp [List.append_assoc]⟩
  · intro hi hc
    rw [← hP, hi, List.append_nil, h2, addCmd_nil_of_nil i hc, List.append_nil]
    exact ⟨P, by simp [List.append_assoc]⟩
  · intro hc
    have e : addCmd i [] = lit " " := by
      have h0 : lit "" = [] := by decide
      simp [addCmd, hc, stringsJoin, h0]
    rw [e, h2]
    exact ⟨lit "docker run " ++ (lit "--name " ++ i.container.Name.drop 1 ++ lit " ") ++
      ((segments i).take 21).flatten ++ i.container.Config.Image, by simp [List.append_assoc]⟩
  · intro hi
    have := output_tail i h
    rw [hi] at this ⊢
    have hb : GetRunlikeCommand bareInspector = some (lit "docker run --name app -d  ") := by
      decide
    rw [hb] at this
    exact (Option.some.inj this).symm
  · rintro hin ⟨tokens, ht, he⟩
    rw [he] at hin
    have h3 : lit "  " = [32, 32] := by decide
    rw [h3] at hin
    exact (no_double_space_joinTokens tokens ht).1 hin
  · intro hi
    rw [← hP, hi, List.append_nil, h2]
    exact ⟨P, by simp [List.append_assoc]⟩

set_option maxRecDepth 100000 in
theorem C20_empty_values_witness :
    (bareInspector.container.Name ≠ [] ∧ bareInspector.container.Config.Image = [] ∧
      bareInspector.container.Config.Cmd = [] ∧
      ∃ out, GetRunlikeCommand bareInspector = some out ∧
        lit "  " <:+: out ∧ lit "  " <:+ out ∧ out = lit "docker run --name app -d  " ∧
        ¬ ∃ tokens : List Str, (∀ t ∈ tokens, t ≠ [] ∧ (32 : UInt8) ∉ t) ∧
          out = joinTokens tokens) ∧
    ((setCmd plainInspector [lit ""]).container.Name ≠ [] ∧
      (setCmd plainInspector [lit ""]).container.Config.Cmd = [lit ""] ∧
      ∃ out, GetRunlikeCommand (setCmd plainInspector [lit ""]) = some out ∧
        lit "  " <:+ out) ∧
    ((setCmd bareInspector [lit "x"]).container.Name ≠ [] ∧
      (setCmd bareInspector [lit "x"]).container.Config.Image = [] ∧
      ∃ out, GetRunlikeCommand (setCmd bareInspector [lit "x"]) = some out ∧
        ∃ before, out = before ++ lit "  " ++ addCmd (setCmd bareInspector [lit "x"]) []) :=
  ⟨⟨by decide, by decide, by decide,
    match C20_empty_values bareInspector (by decide) with
    | ⟨out, ho, h1, h2, _, h4, h5, _⟩ =>
      ⟨out, ho, h1 (by decide), h2 (by decide) (by decide), h4 rfl, h5 (h1 (by decide))⟩⟩,
   ⟨by decide, by decide,
    match C20_empty_values (setCmd plainInspector [lit ""]) (by decide) with
    | ⟨out, ho, _, _, h3, _, _, _⟩ => ⟨out, ho, h3 (by decide)⟩⟩,
   ⟨by decide, by decide,
    match C20_empty_values (setCmd bareInspector [lit "x"]) (by decide) with
    | ⟨out, ho, _, _, _, _, _, h6⟩ => ⟨out, ho, h6 (by decide)⟩⟩⟩

end Runlike
